import Mathlib

/-!
Chunk Action Authority (`MMID_rules.cc`).

A shallow embedding of `GetDataType`, `ProcessData`, `ProcessSignedData`,
`PreOperationChecks`, `VerifyCurrentData`, `ProcessMsidData` and
`ProcessMmidData`, followed by theorems about them.

Conventions of the embedding.

* A `std::string` is a list of bytes, each byte a natural number taken modulo 256
  where its numeric value is used.
* The chunk store, the hash, the signature primitives and the protobuf codec are
  collaborators whose code lives outside `MMID_rules.cc`; they are fields of
  `ChunkStore` and `Env`.
* A member function that mutates the chunk store and fires signals returns an
  `Outcome`: the integer result, the chunk store afterwards and the signals fired,
  in firing order.
-/

namespace ChunkActionAuthority

/-- A `std::string`: a sequence of bytes. -/
abbrev Bytes := List Nat

/-- The `DataType` enumeration is a C++ `enum`, hence an integer; `GetDataType` builds
one from an arbitrary `char` by `static_cast`. -/
abbrev DataType := Int

/-- Modelled from the spec: the `DataType` enumerators of `chunk_action_authority.h`,
which is not among the sources. The spec lists the tagged kinds in the order
`Anmpid, Mpid, NonHashableSigned, Msid, Mmid`, their ordinals being the tags strictly
between `0` and `kMaxDataType`; `kUnknown` and `kHashableSigned` lie outside that range. -/
def kUnknown : DataType := -1

/-- Modelled from the spec: see `kUnknown`. -/
def kHashableSigned : DataType := 0

/-- Modelled from the spec: see `kUnknown`. -/
def kAnmpid : DataType := 1

/-- Modelled from the spec: see `kUnknown`. -/
def kMpid : DataType := 2

/-- Modelled from the spec: see `kUnknown`. -/
def kNonHashableSigned : DataType := 3

/-- Modelled from the spec: see `kUnknown`. -/
def kMsid : DataType := 4

/-- Modelled from the spec: see `kUnknown`. -/
def kMmid : DataType := 5

/-- Modelled from the spec: see `kUnknown`. -/
def kMaxDataType : DataType := 6

/-- The constant `crypto::SHA512::DIGESTSIZE`: a SHA-512 digest has 64 bytes. -/
def DIGESTSIZE : Nat := 64

/-- Modelled from the spec: the `OperationType` enumeration of
`chunk_action_authority.h`, which is not among the sources; the five enumerators are
the ones `MMID_rules.cc` names. -/
inductive OperationType where
  | kStore
  | kDelete
  | kUpdate
  | kGet
  | kHas
  deriving DecidableEq, Repr

/-- Modelled from the spec: the result codes of `return_codes.h`, which is not among
the sources. The functions return them as `int`; the embedding keeps one constructor
per enumerator that `MMID_rules.cc` names, so that distinct enumerators are distinct
results. -/
inductive ReturnCode where
  | kSuccess
  | kKeyNotUnique
  | kKeyUnique
  | kUnknownFailure
  | kPreOperationCheckFailure
  | kDuplicateNameFailure
  | kStoreFailure
  | kVerifyDataFailure
  | kDeleteFailure
  | kModifyFailure
  | kInvalidSignedData
  | kInvalidUpdate
  | kNotHashable
  | kSignatureVerificationFailure
  | kNotOwner
  | kParseFailure
  | kWontAcceptContact
  deriving DecidableEq, Repr

/-- Modelled from the spec: the protobuf message `GenericPacket`
(`{ data, signature, type }`); its declaration is not among the sources. -/
structure GenericPacket where
  data : Bytes
  signature : Bytes
  type : DataType
  deriving DecidableEq, Repr

/-- Modelled from the spec: the protobuf message `DataWrapper`
(`{ signed_data : GenericPacket }`); its declaration is not among the sources. -/
structure DataWrapper where
  signed_data : GenericPacket
  deriving DecidableEq, Repr

/-- Modelled from the spec: the protobuf message `MSID`
(`{ public_key, signature, accepts_new_contacts, encrypted_mcid* }`); its declaration
is not among the sources. -/
structure MSID where
  public_key : Bytes
  signature : Bytes
  accepts_new_contacts : Bool
  encrypted_mcid : List Bytes
  deriving DecidableEq, Repr

/-- Modelled from the spec: the protobuf message `MMID`
(`{ public_key, signature, encrypted_message* }`); its declaration is not among the
sources. `E` is the message type of one `encrypted_message` entry. -/
structure MMID (E : Type) where
  public_key : Bytes
  signature : Bytes
  encrypted_message : List E
  deriving DecidableEq

/-- Modelled from the spec: the chunk store of `maidsafe/common/chunk_store.h`, which is
not among the sources. Its content maps a name to the bytes held under it; each of the
three mutating calls may be rejected by the store (`storeOk`, `modifyOk`, `deleteOk`
say which calls are accepted), and a rejected call leaves the content as it was. -/
structure ChunkStore where
  chunks : Bytes → Option Bytes
  storeOk : Bytes → Bytes → Bool
  modifyOk : Bytes → Bytes → Bool
  deleteOk : Bytes → Bool

/-- Modelled from the spec: `Has(name) -> bool`. -/
def ChunkStore.Has (cs : ChunkStore) (name : Bytes) : Bool :=
  (cs.chunks name).isSome

/-- Modelled from the spec: `Get(name) -> bytes`, empty when nothing is held. -/
def ChunkStore.Get (cs : ChunkStore) (name : Bytes) : Bytes :=
  (cs.chunks name).getD []

/-- The content of a store with `value` written under `name`. -/
def ChunkStore.put (cs : ChunkStore) (name : Bytes) (value : Option Bytes) : ChunkStore :=
  { cs with chunks := fun n => if n = name then value else cs.chunks n }

/-- Modelled from the spec: `Store(name, bytes) -> bool`. -/
def ChunkStore.Store (cs : ChunkStore) (name content : Bytes) : Bool × ChunkStore :=
  if cs.storeOk name content then (true, cs.put name (some content)) else (false, cs)

/-- Modelled from the spec: `Modify(name, bytes) -> bool`. -/
def ChunkStore.Modify (cs : ChunkStore) (name content : Bytes) : Bool × ChunkStore :=
  if cs.modifyOk name content then (true, cs.put name (some content)) else (false, cs)

/-- Modelled from the spec: `Delete(name) -> bool`. -/
def ChunkStore.Delete (cs : ChunkStore) (name : Bytes) : Bool × ChunkStore :=
  if cs.deleteOk name then (true, cs.put name none) else (false, cs)

/-- The collaborators of `MMID_rules.cc` other than the chunk store: the hash and the
signature primitives of `maidsafe/common/crypto.h`, and the protobuf codec of the four
message types. `K` is `asymm::PublicKey`, `E` the `encrypted_message` entry type.

`CheckSignature` returns an `int`, `0` (`kSuccess`) when the signature verifies: the
source compares it with `kSuccess` in `PreOperationChecks` and `VerifyCurrentData` and
with `0` in the two mailbox functions.

`payloadWrapper` is the `DataWrapper` that the two mailbox functions read their `data`
argument as: they call `data.signed_data()` and `data.SerializeAsString()` on it
directly, without a parse step that could fail. -/
structure Env (K E : Type) where
  Hash : Bytes → Bytes
  CheckSignature : Bytes → Bytes → K → Int
  ValidateKey : K → Bool
  parseGenericPacket : Bytes → Option GenericPacket
  serializeGenericPacket : GenericPacket → Bytes
  parseDataWrapper : Bytes → Option DataWrapper
  serializeDataWrapper : DataWrapper → Bytes
  parseMSID : Bytes → Option MSID
  serializeMSID : MSID → Bytes
  parseMMID : Bytes → Option (MMID E)
  serializeMMID : MMID E → Bytes
  parseEncrypted : Bytes → Option E
  serializeEncrypted : E → Bytes
  payloadWrapper : Bytes → DataWrapper

/-- One firing of `get_string_signal_` (one payload) or of `get_vector_signal_`
(a vector of payloads). -/
inductive Signal where
  | string (payload : Bytes)
  | vector (payloads : List Bytes)
  deriving DecidableEq, Repr

/-- What a call leaves behind: the returned code, the chunk store afterwards and the
signals fired during the call. -/
structure Outcome where
  code : ReturnCode
  store : ChunkStore
  signals : List Signal

/-- The conversion `static_cast<DataType>(c)` of a `char` holding byte `b`; `char` is
signed, so bytes from 128 up are negative. -/
def charToDataType (b : Nat) : DataType :=
  if b % 256 < 128 then ((b % 256 : Nat) : Int) else ((b % 256 : Nat) : Int) - 256

/-- The function `GetDataType` (lines 31-43). -/
def GetDataType (name : Bytes) : DataType :=
  if name.length = DIGESTSIZE then
    kHashableSigned
  else if name.length = DIGESTSIZE + 1 then
    let type := charToDataType (name.headD 0)
    if type > 0 ∧ type < kMaxDataType then type else kUnknown
  else
    kUnknown

open OperationType ReturnCode

variable {K E : Type}

/-- Member `ChunkActionAuthority::PreOperationChecks` (lines 156-195). -/
def PreOperationChecks (env : Env K E) (op_type : OperationType) (name data : Bytes)
    (public_key : K) (hashable : Bool) : ReturnCode :=
  if op_type = kGet then
    kSuccess
  else
    match env.parseGenericPacket data with
    | none => kInvalidSignedData
    | some generic_packet =>
      let signature_check : ReturnCode :=
        if env.CheckSignature generic_packet.data generic_packet.signature
            public_key ≠ 0 then
          kSignatureVerificationFailure
        else
          kSuccess
      if hashable = true then
        if op_type = kUpdate then
          kInvalidUpdate
        else if env.Hash (generic_packet.data ++ generic_packet.signature) ≠ name then
          kNotHashable
        else
          signature_check
      else
        signature_check

/-- Member `ChunkActionAuthority::VerifyCurrentData` (lines 197-228): the code returned and
the bytes left in `*current_data`. -/
def VerifyCurrentData (env : Env K E) (name : Bytes) (public_key : K)
    (chunk_store : ChunkStore) : ReturnCode × Bytes :=
  let current_data := chunk_store.Get name
  if current_data = [] then
    (kVerifyDataFailure, current_data)
  else
    match env.parseGenericPacket current_data with
    | none => (kInvalidSignedData, current_data)
    | some generic_packet =>
      if env.ValidateKey public_key = true ∧
          env.CheckSignature generic_packet.data generic_packet.signature
            public_key ≠ 0 then
        (kNotOwner, current_data)
      else
        (kSuccess, current_data)

/-- Member `ChunkActionAuthority::ProcessSignedData` (lines 89-154). -/
def ProcessSignedData (env : Env K E) (op_type : OperationType) (name data : Bytes)
    (public_key : K) (hashable : Bool) (chunk_store : ChunkStore) : Outcome :=
  if PreOperationChecks env op_type name data public_key hashable ≠ kSuccess then
    ⟨kPreOperationCheckFailure, chunk_store, []⟩
  else
    match op_type with
    | kStore =>
      if chunk_store.Has name = true then
        ⟨kDuplicateNameFailure, chunk_store, []⟩
      else if (chunk_store.Store name data).1 = false then
        ⟨kStoreFailure, (chunk_store.Store name data).2, []⟩
      else
        ⟨kSuccess, (chunk_store.Store name data).2, []⟩
    | kDelete =>
      if (VerifyCurrentData env name public_key chunk_store).1 ≠ kSuccess then
        ⟨kVerifyDataFailure, chunk_store, []⟩
      else if (chunk_store.Delete name).1 = false then
        ⟨kDeleteFailure, (chunk_store.Delete name).2, []⟩
      else
        ⟨kSuccess, (chunk_store.Delete name).2, []⟩
    | kUpdate =>
      if (VerifyCurrentData env name public_key chunk_store).1 ≠ kSuccess then
        ⟨kVerifyDataFailure, chunk_store, []⟩
      else if (chunk_store.Modify name data).1 = false then
        ⟨kModifyFailure, (chunk_store.Modify name data).2, []⟩
      else
        ⟨kSuccess, (chunk_store.Modify name data).2, []⟩
    | kGet =>
      if (VerifyCurrentData env name public_key chunk_store).1 ≠ kSuccess then
        ⟨kVerifyDataFailure, chunk_store, []⟩
      else
        ⟨kSuccess, chunk_store,
          [Signal.string (VerifyCurrentData env name public_key chunk_store).2]⟩
    | kHas => ⟨kSuccess, chunk_store, []⟩

/-- The bytes `data_wrapper.SerializeAsString()` after
`data_wrapper.mutable_signed_data()->set_data(msid.SerializeAsString())`
(lines 263-266 and 292-296). -/
def rewrapMsid (env : Env K E) (data_wrapper : DataWrapper) (msid : MSID) : Bytes :=
  env.serializeDataWrapper
    { signed_data := { data_wrapper.signed_data with data := env.serializeMSID msid } }

/-- The bytes `data_wrapper.SerializeAsString()` after
`data_wrapper.mutable_signed_data()->set_data(mmid.SerializeAsString())`
(lines 389-392 and 416-420). -/
def rewrapMmid (env : Env K E) (data_wrapper : DataWrapper) (mmid : MMID E) : Bytes :=
  env.serializeDataWrapper
    { signed_data := { data_wrapper.signed_data with data := env.serializeMMID mmid } }

/-- Member `ChunkActionAuthority::ProcessMsidData` (lines 230-346). In the owner `switch` the
`kDelete` case has no `break`: after a successful `Delete` control falls through to
`default: return kUnknownFailure;`. -/
def ProcessMsidData (env : Env K E) (op_type : OperationType) (name data : Bytes)
    (public_key : K) (chunk_store : ChunkStore) : Outcome :=
  let current_data := chunk_store.Get name
  if current_data ≠ [] then
    match env.parseDataWrapper current_data with
    | none => ⟨kParseFailure, chunk_store, []⟩
    | some data_wrapper =>
      match env.parseMSID data_wrapper.signed_data.data with
      | none => ⟨kParseFailure, chunk_store, []⟩
      | some current_msid =>
        if env.CheckSignature current_msid.public_key current_msid.signature
            public_key ≠ 0 then
          if op_type = kStore then
            if current_msid.accepts_new_contacts = true then
              let added : MSID :=
                { current_msid with
                  encrypted_mcid := current_msid.encrypted_mcid ++
                    [(env.payloadWrapper data).signed_data.data] }
              let modified := chunk_store.Modify name (rewrapMsid env data_wrapper added)
              if modified.1 = false then
                ⟨kModifyFailure, modified.2, []⟩
              else
                ⟨kSuccess, modified.2, []⟩
            else
              ⟨kWontAcceptContact, chunk_store, []⟩
          else if op_type = kGet then
            let gp : GenericPacket :=
              { data := current_msid.public_key,
                signature := current_msid.signature,
                type := kMsid }
            ⟨kSuccess, chunk_store, [Signal.string (env.serializeGenericPacket gp)]⟩
          else
            ⟨kUnknownFailure, chunk_store, []⟩
        else
          match op_type with
          | kGet =>
            if current_msid.encrypted_mcid.length > 0 then
              let mcids := current_msid.encrypted_mcid
              let cleared : MSID := { current_msid with encrypted_mcid := [] }
              let modified := chunk_store.Modify name (rewrapMsid env data_wrapper cleared)
              if modified.1 = false then
                ⟨kModifyFailure, modified.2, []⟩
              else
                ⟨kSuccess, modified.2, [Signal.vector mcids]⟩
            else
              ⟨kSuccess, chunk_store, []⟩
          | kUpdate => ⟨kSuccess, chunk_store, []⟩
          | kDelete =>
            let deleted := chunk_store.Delete name
            if deleted.1 = false then
              ⟨kDeleteFailure, deleted.2, []⟩
            else
              ⟨kUnknownFailure, deleted.2, []⟩
          | _ => ⟨kUnknownFailure, chunk_store, []⟩
  else
    match env.parseMSID (env.payloadWrapper data).signed_data.data with
    | none => ⟨kStoreFailure, chunk_store, []⟩
    | some wrapper_msid =>
      if env.CheckSignature wrapper_msid.public_key wrapper_msid.signature
          public_key ≠ 0 then
        ⟨kStoreFailure, chunk_store, []⟩
      else
        let a := env.serializeDataWrapper (env.payloadWrapper data)
        let stored := chunk_store.Store name a
        if stored.1 = false then
          ⟨kStoreFailure, stored.2, []⟩
        else
          ⟨kSuccess, stored.2, []⟩

/-- Member `ChunkActionAuthority::ProcessMmidData` (lines 348-466). As in `ProcessMsidData`,
the owner `kDelete` case falls through to `default: return kUnknownFailure;`. -/
def ProcessMmidData (env : Env K E) (op_type : OperationType) (name data : Bytes)
    (public_key : K) (chunk_store : ChunkStore) : Outcome :=
  let current_data := chunk_store.Get name
  if current_data ≠ [] then
    match env.parseDataWrapper current_data with
    | none => ⟨kParseFailure, chunk_store, []⟩
    | some data_wrapper =>
      match env.parseMMID data_wrapper.signed_data.data with
      | none => ⟨kParseFailure, chunk_store, []⟩
      | some current_mmid =>
        if env.CheckSignature current_mmid.public_key current_mmid.signature
            public_key ≠ 0 then
          if op_type = kStore then
            match env.parseEncrypted (env.payloadWrapper data).signed_data.data with
            | none => ⟨kModifyFailure, chunk_store, []⟩
            | some message =>
              let added : MMID E :=
                { current_mmid with
                  encrypted_message := current_mmid.encrypted_message ++ [message] }
              let modified := chunk_store.Modify name (rewrapMmid env data_wrapper added)
              if modified.1 = false then
                ⟨kModifyFailure, modified.2, []⟩
              else
                ⟨kSuccess, modified.2, []⟩
          else if op_type = kGet then
            let gp : GenericPacket :=
              { data := current_mmid.public_key,
                signature := current_mmid.signature,
                type := kMmid }
            ⟨kSuccess, chunk_store, [Signal.string (env.serializeGenericPacket gp)]⟩
          else
            ⟨kUnknownFailure, chunk_store, []⟩
        else
          match op_type with
          | kGet =>
            if current_mmid.encrypted_message.length > 0 then
              let mmids := current_mmid.encrypted_message.map env.serializeEncrypted
              let cleared : MMID E := { current_mmid with encrypted_message := [] }
              let modified := chunk_store.Modify name (rewrapMmid env data_wrapper cleared)
              if modified.1 = false then
                ⟨kModifyFailure, modified.2, []⟩
              else
                ⟨kSuccess, modified.2, [Signal.vector mmids]⟩
            else
              ⟨kSuccess, chunk_store, []⟩
          | kDelete =>
            let deleted := chunk_store.Delete name
            if deleted.1 = false then
              ⟨kDeleteFailure, deleted.2, []⟩
            else
              ⟨kUnknownFailure, deleted.2, []⟩
          | _ => ⟨kUnknownFailure, chunk_store, []⟩
  else
    match env.parseMMID (env.payloadWrapper data).signed_data.data with
    | none => ⟨kStoreFailure, chunk_store, []⟩
    | some wrapper_msid =>
      if env.CheckSignature wrapper_msid.public_key wrapper_msid.signature
          public_key ≠ 0 then
        ⟨kStoreFailure, chunk_store, []⟩
      else
        let a := env.serializeDataWrapper (env.payloadWrapper data)
        let stored := chunk_store.Store name a
        if stored.1 = false then
          ⟨kStoreFailure, stored.2, []⟩
        else
          ⟨kSuccess, stored.2, []⟩

/-- Member `ChunkActionAuthority::ProcessData` (lines 63-87). -/
def ProcessData (env : Env K E) (op_type : OperationType) (name data : Bytes)
    (public_key : K) (chunk_store : ChunkStore) : Outcome :=
  if op_type = kHas then
    ⟨if chunk_store.Has name = true then kKeyNotUnique else kKeyUnique, chunk_store, []⟩
  else if GetDataType name = kAnmpid ∨ GetDataType name = kMpid ∨
      GetDataType name = kHashableSigned then
    ProcessSignedData env op_type name data public_key true chunk_store
  else if GetDataType name = kNonHashableSigned then
    ProcessSignedData env op_type name data public_key false chunk_store
  else if GetDataType name = kMsid then
    ProcessMsidData env op_type name data public_key chunk_store
  else if GetDataType name = kMmid then
    ProcessMmidData env op_type name data public_key chunk_store
  else
    ⟨kUnknownFailure, chunk_store, []⟩

/-! ## A small concrete environment

A length-prefixed codec, a checksum in place of the hash and a signature scheme in
which the signature of `data` under key `k` is `k :: data`. The general theorems below
hold for every environment; this one serves to run the functions on concrete inputs. -/

namespace Demo

/-- Reads one length-prefixed field and returns it with the bytes that follow. -/
def readField : Bytes → Option (Bytes × Bytes)
  | [] => none
  | n :: rest => if n ≤ rest.length then some (rest.take n, rest.drop n) else none

/-- Reads `count` length-prefixed fields. -/
def readFields : Nat → Bytes → Option (List Bytes × Bytes)
  | 0, bs => some ([], bs)
  | count + 1, bs =>
    match readField bs with
    | none => none
    | some (field, rest) =>
      match readFields count rest with
      | none => none
      | some (fields, rest2) => some (field :: fields, rest2)

/-- Writes one length-prefixed field. -/
def writeField (b : Bytes) : Bytes := b.length :: b

/-- Writes a counted sequence of length-prefixed fields. -/
def writeFields (fields : List Bytes) : Bytes :=
  fields.length :: (fields.map writeField).flatten

def serializeGenericPacket (gp : GenericPacket) : Bytes :=
  writeField gp.data ++ writeField gp.signature ++ [gp.type.toNat]

def parseGenericPacket (bs : Bytes) : Option GenericPacket :=
  match readField bs with
  | none => none
  | some (data, rest) =>
    match readField rest with
    | some (signature, [type]) => some ⟨data, signature, (type : Int)⟩
    | _ => none

def serializeDataWrapper (w : DataWrapper) : Bytes :=
  87 :: serializeGenericPacket w.signed_data

def parseDataWrapper : Bytes → Option DataWrapper
  | 87 :: rest => (parseGenericPacket rest).map DataWrapper.mk
  | _ => none

def serializeMSID (m : MSID) : Bytes :=
  writeField m.public_key ++ writeField m.signature ++
    (if m.accepts_new_contacts then 1 else 0) :: writeFields m.encrypted_mcid

def parseMSID (bs : Bytes) : Option MSID :=
  match readField bs with
  | none => none
  | some (public_key, rest) =>
    match readField rest with
    | some (signature, flag :: count :: rest2) =>
      (match readFields count rest2 with
       | some (mcids, []) => some ⟨public_key, signature, decide (flag = 1), mcids⟩
       | _ => none)
    | _ => none

def serializeMMID (m : MMID Bytes) : Bytes :=
  writeField m.public_key ++ writeField m.signature ++ writeFields m.encrypted_message

def parseMMID (bs : Bytes) : Option (MMID Bytes) :=
  match readField bs with
  | none => none
  | some (public_key, rest) =>
    match readField rest with
    | some (signature, count :: rest2) =>
      (match readFields count rest2 with
       | some (messages, []) => some ⟨public_key, signature, messages⟩
       | _ => none)
    | _ => none

/-- The demo environment: keys are numbers, key `0` is not a valid key, an
`encrypted_message` entry is a non-empty byte string. -/
def env : Env Nat Bytes where
  Hash := fun b => List.replicate DIGESTSIZE (b.sum % 256)
  CheckSignature := fun data signature key => if signature = key :: data then 0 else -1
  ValidateKey := fun key => decide (key ≠ 0)
  parseGenericPacket := parseGenericPacket
  serializeGenericPacket := serializeGenericPacket
  parseDataWrapper := parseDataWrapper
  serializeDataWrapper := serializeDataWrapper
  parseMSID := parseMSID
  serializeMSID := serializeMSID
  parseMMID := parseMMID
  serializeMMID := serializeMMID
  parseEncrypted := fun b => if b = [] then none else some b
  serializeEncrypted := fun e => e
  payloadWrapper := fun b => (parseDataWrapper b).getD ⟨⟨[], [], 0⟩⟩

/-- A store that holds `content` and accepts every call. -/
def storeOf (content : List (Bytes × Bytes)) : ChunkStore where
  chunks := fun n => (content.find? (fun e => decide (e.1 = n))).map Prod.snd
  storeOk := fun _ _ => true
  modifyOk := fun _ _ => true
  deleteOk := fun _ => true

/-- A name of `DIGESTSIZE + 1` bytes with leading tag `tag`. -/
def taggedName (tag : Nat) : Bytes := tag :: List.replicate DIGESTSIZE 7

/-- The key of the mailbox owner in the examples, and a stranger's key. -/
def ownerKey : Nat := 11

def otherKey : Nat := 12

/-- A social-identity mailbox of `ownerKey` with public key `[1, 2]`. -/
def msidOf (accepts : Bool) (queue : List Bytes) : MSID :=
  ⟨[1, 2], [ownerKey, 1, 2], accepts, queue⟩

/-- A messaging mailbox of `ownerKey` with public key `[1, 2]`. -/
def mmidOf (queue : List Bytes) : MMID Bytes :=
  ⟨[1, 2], [ownerKey, 1, 2], queue⟩

/-- The stored form of a mailbox record: a wrapper around its serialisation. -/
def wrap (inner : Bytes) (type : DataType) : DataWrapper := ⟨⟨inner, [9], type⟩⟩

def msidName : Bytes := taggedName 4

def mmidName : Bytes := taggedName 5

/-- A store holding one social-identity mailbox with contact queue `queue`. -/
def msidStore (accepts : Bool) (queue : List Bytes) : ChunkStore :=
  storeOf [(msidName, serializeDataWrapper (wrap (serializeMSID (msidOf accepts queue)) kMsid))]

/-- A store holding one messaging mailbox with message queue `queue`. -/
def mmidStore (queue : List Bytes) : ChunkStore :=
  storeOf [(mmidName, serializeDataWrapper (wrap (serializeMMID (mmidOf queue)) kMmid))]

/-- A signed packet: `data` signed by `key`. -/
def signedPacket (data : Bytes) (key : Nat) (type : DataType) : GenericPacket :=
  ⟨data, key :: data, type⟩

/-- A content-addressed name: the hash of the packet's data and signature. -/
def hashName (gp : GenericPacket) : Bytes := env.Hash (gp.data ++ gp.signature)

/-- A content-addressed packet and its name. -/
def hashPacket : GenericPacket := signedPacket [3, 4] ownerKey kHashableSigned

def hashPacketName : Bytes := hashName hashPacket

/-- A store that holds nothing and accepts every call. -/
def emptyStore : ChunkStore := storeOf []

/-- A name of the non-hashable signed kind and a packet signed by `ownerKey`. -/
def plainName : Bytes := taggedName 3

def plainPacket : GenericPacket := signedPacket [3, 4] ownerKey kNonHashableSigned

/-- A payload whose wrapper carries `[8, 8]` as the data of its signed packet. -/
def contactPayload : Bytes := serializeDataWrapper (wrap [8, 8] kMsid)

/-- A payload whose wrapper carries a fresh social-identity mailbox of `ownerKey`. -/
def mailboxPayload : Bytes :=
  serializeDataWrapper (wrap (serializeMSID (msidOf true [])) kMsid)

/-- A store holding `plainPacket` under `plainName`. -/
def plainStore : ChunkStore :=
  storeOf [(plainName, serializeGenericPacket plainPacket)]

/-- A name of `DIGESTSIZE + 1` bytes whose tag is outside the enumeration. -/
def unknownName : Bytes := taggedName 9

/-- A name of `DIGESTSIZE + 1` bytes with the tag of `kAnmpid`. -/
def anmpidName : Bytes := taggedName 1

/-- A store that holds nothing and rejects every `Store`. -/
def fullStore : ChunkStore where
  chunks := fun _ => none
  storeOk := fun _ _ => false
  modifyOk := fun _ _ => true
  deleteOk := fun _ => true

/-- A payload whose wrapper carries a fresh messaging mailbox of `ownerKey`. -/
def mmidPayload : Bytes :=
  serializeDataWrapper (wrap (serializeMMID (mmidOf [])) kMmid)

end Demo

/-! ## Routing lemmas -/

theorem ProcessData_of_msid (env : Env K E) (op_type : OperationType) (name data : Bytes)
    (public_key : K) (cs : ChunkStore) (hop : op_type ≠ kHas)
    (hkind : GetDataType name = kMsid) :
    ProcessData env op_type name data public_key cs =
      ProcessMsidData env op_type name data public_key cs := by
  unfold ProcessData
  simp [hop, hkind, kMsid, kAnmpid, kMpid, kHashableSigned, kNonHashableSigned]

theorem ProcessData_of_mmid (env : Env K E) (op_type : OperationType) (name data : Bytes)
    (public_key : K) (cs : ChunkStore) (hop : op_type ≠ kHas)
    (hkind : GetDataType name = kMmid) :
    ProcessData env op_type name data public_key cs =
      ProcessMmidData env op_type name data public_key cs := by
  unfold ProcessData
  simp [hop, hkind, kMsid, kMmid, kAnmpid, kMpid, kHashableSigned, kNonHashableSigned]

theorem ProcessData_of_hashable (env : Env K E) (op_type : OperationType)
    (name data : Bytes) (public_key : K) (cs : ChunkStore) (hop : op_type ≠ kHas)
    (hkind : GetDataType name = kHashableSigned ∨ GetDataType name = kAnmpid ∨
      GetDataType name = kMpid) :
    ProcessData env op_type name data public_key cs =
      ProcessSignedData env op_type name data public_key true cs := by
  unfold ProcessData
  rcases hkind with h | h | h <;> simp [hop, h]

theorem ProcessData_of_nonhashable (env : Env K E) (op_type : OperationType)
    (name data : Bytes) (public_key : K) (cs : ChunkStore) (hop : op_type ≠ kHas)
    (hkind : GetDataType name = kNonHashableSigned) :
    ProcessData env op_type name data public_key cs =
      ProcessSignedData env op_type name data public_key false cs := by
  unfold ProcessData
  simp [hop, hkind, kAnmpid, kMpid, kHashableSigned, kNonHashableSigned]

/-! ## Store lemmas -/

theorem ChunkStore.put_Get (cs : ChunkStore) (name value : Bytes) :
    (cs.put name (some value)).Get name = value := by
  simp [ChunkStore.put, ChunkStore.Get]

theorem ChunkStore.put_Has (cs : ChunkStore) (name value : Bytes) :
    (cs.put name (some value)).Has name = true := by
  simp [ChunkStore.put, ChunkStore.Has]

theorem ChunkStore.Has_of_Get_ne (cs : ChunkStore) (name : Bytes)
    (h : cs.Get name ≠ []) : cs.Has name = true := by
  unfold ChunkStore.Get at h
  unfold ChunkStore.Has
  cases hc : cs.chunks name with
  | none => simp [hc] at h
  | some v => rfl

/-! ## Owner `Delete` on a mailbox -/

/-- On an existing, parseable social-identity mailbox, owner `Delete` with the store
accepting the call removes the record and returns `kUnknownFailure`. -/
theorem ProcessMsidData_owner_delete (env : Env K E) (name data : Bytes) (public_key : K)
    (cs : ChunkStore) (w : DataWrapper) (m : MSID)
    (hne : cs.Get name ≠ []) (hw : env.parseDataWrapper (cs.Get name) = some w)
    (hm : env.parseMSID w.signed_data.data = some m)
    (hsig : env.CheckSignature m.public_key m.signature public_key = 0)
    (hdel : cs.deleteOk name = true) :
    ProcessMsidData env kDelete name data public_key cs =
      ⟨kUnknownFailure, cs.put name none, []⟩ := by
  simp [ProcessMsidData, hne, hw, hm, hsig, ChunkStore.Delete, hdel]

/-- On an existing, parseable messaging mailbox, owner `Delete` with the store accepting
the call removes the record and returns `kUnknownFailure`. -/
theorem ProcessMmidData_owner_delete (env : Env K E) (name data : Bytes) (public_key : K)
    (cs : ChunkStore) (w : DataWrapper) (m : MMID E)
    (hne : cs.Get name ≠ []) (hw : env.parseDataWrapper (cs.Get name) = some w)
    (hm : env.parseMMID w.signed_data.data = some m)
    (hsig : env.CheckSignature m.public_key m.signature public_key = 0)
    (hdel : cs.deleteOk name = true) :
    ProcessMmidData env kDelete name data public_key cs =
      ⟨kUnknownFailure, cs.put name none, []⟩ := by
  simp [ProcessMmidData, hne, hw, hm, hsig, ChunkStore.Delete, hdel]

/-- C1 (evaluation at the failing input). The demo store holds a parseable
social-identity mailbox whose self-signature validates under `ownerKey`, and accepts
every `Delete`. `ProcessData` with operation `Delete` and `ownerKey` removes the record
and returns `kUnknownFailure`, not `kSuccess`. -/
theorem C1_owner_delete_msid_not_success :
    GetDataType Demo.msidName = kMsid ∧
    Demo.env.parseDataWrapper ((Demo.msidStore true [[5]]).Get Demo.msidName) =
      some (Demo.wrap (Demo.serializeMSID (Demo.msidOf true [[5]])) kMsid) ∧
    Demo.env.parseMSID (Demo.serializeMSID (Demo.msidOf true [[5]])) =
      some (Demo.msidOf true [[5]]) ∧
    Demo.env.CheckSignature (Demo.msidOf true [[5]]).public_key
      (Demo.msidOf true [[5]]).signature Demo.ownerKey = 0 ∧
    (ProcessData Demo.env kDelete Demo.msidName [] Demo.ownerKey
      (Demo.msidStore true [[5]])).code = kUnknownFailure ∧
    (ProcessData Demo.env kDelete Demo.msidName [] Demo.ownerKey
      (Demo.msidStore true [[5]])).store.Has Demo.msidName = false := by
  decide

/-- C2 (evaluation at the failing input). The demo store holds a parseable messaging
mailbox and accepts every `Delete`. `ProcessData` with operation `Delete` and the
owner key returns `kUnknownFailure`, a code other than `kSuccess`, although the record
held before the call is gone after it. -/
theorem C2_failure_after_mutation :
    (ProcessData Demo.env kDelete Demo.mmidName [] Demo.ownerKey
      (Demo.mmidStore [[5]])).code = kUnknownFailure ∧
    (Demo.mmidStore [[5]]).chunks Demo.mmidName =
      some (Demo.serializeDataWrapper
        (Demo.wrap (Demo.serializeMMID (Demo.mmidOf [[5]])) kMmid)) ∧
    (ProcessData Demo.env kDelete Demo.mmidName [] Demo.ownerKey
      (Demo.mmidStore [[5]])).store.chunks Demo.mmidName = none := by
  decide

/-! ## Signed data -/

/-- The result of `PreOperationChecks` for `Update` with `hashable` set. -/
theorem PreOperationChecks_update_hashable (env : Env K E) (name data : Bytes)
    (public_key : K) :
    PreOperationChecks env kUpdate name data public_key true =
      if (env.parseGenericPacket data).isSome = true then kInvalidUpdate
      else kInvalidSignedData := by
  unfold PreOperationChecks
  cases hp : env.parseGenericPacket data <;> simp

/-- C3 (counterexample). For a name of `DIGESTSIZE` bytes and a payload that parses as
a `GenericPacket`, `ProcessData` with operation `Update` does not return
`kInvalidUpdate`. -/
theorem C3_update_hashable_not_invalid_update :
    GetDataType Demo.hashPacketName = kHashableSigned ∧
    (Demo.env.parseGenericPacket (Demo.serializeGenericPacket Demo.hashPacket)).isSome
      = true ∧
    (ProcessData Demo.env kUpdate Demo.hashPacketName
      (Demo.serializeGenericPacket Demo.hashPacket) Demo.ownerKey Demo.emptyStore).code
      ≠ kInvalidUpdate := by
  decide

/-- C3 (amended). For every name that the dispatcher routes with `hashable = true`,
every payload, key and store, `ProcessData` with operation `Update` returns
`kPreOperationCheckFailure`, leaves the store as it was and fires no signal; the
inner `PreOperationChecks` yields `kInvalidUpdate` when the payload parses as a
`GenericPacket` and `kInvalidSignedData` when it does not. -/
theorem C3_update_hashable_rejected (env : Env K E) (name data : Bytes) (public_key : K)
    (cs : ChunkStore)
    (hkind : GetDataType name = kHashableSigned ∨ GetDataType name = kAnmpid ∨
      GetDataType name = kMpid) :
    (ProcessData env kUpdate name data public_key cs).code = kPreOperationCheckFailure ∧
    (ProcessData env kUpdate name data public_key cs).store = cs ∧
    (ProcessData env kUpdate name data public_key cs).signals = [] ∧
    PreOperationChecks env kUpdate name data public_key true =
      (if (env.parseGenericPacket data).isSome = true then kInvalidUpdate
       else kInvalidSignedData) := by
  have hpre := PreOperationChecks_update_hashable env name data public_key
  rw [ProcessData_of_hashable env kUpdate name data public_key cs (by decide) hkind]
  refine ⟨?_, ?_, ?_, hpre⟩ <;>
    · unfold ProcessSignedData
      rw [hpre]
      cases env.parseGenericPacket data <;> simp

theorem C3_update_hashable_rejected_witness :
    (ProcessData Demo.env kUpdate Demo.hashPacketName
      (Demo.serializeGenericPacket Demo.hashPacket) Demo.ownerKey Demo.emptyStore).code
      = kPreOperationCheckFailure ∧
    (ProcessData Demo.env kUpdate Demo.hashPacketName
      (Demo.serializeGenericPacket Demo.hashPacket) Demo.ownerKey Demo.emptyStore).store
      = Demo.emptyStore ∧
    (ProcessData Demo.env kUpdate Demo.hashPacketName
      (Demo.serializeGenericPacket Demo.hashPacket) Demo.ownerKey
      Demo.emptyStore).signals = [] ∧
    PreOperationChecks Demo.env kUpdate Demo.hashPacketName
      (Demo.serializeGenericPacket Demo.hashPacket) Demo.ownerKey true =
      (if (Demo.env.parseGenericPacket
          (Demo.serializeGenericPacket Demo.hashPacket)).isSome = true
       then kInvalidUpdate else kInvalidSignedData) :=
  C3_update_hashable_rejected Demo.env Demo.hashPacketName
    (Demo.serializeGenericPacket Demo.hashPacket) Demo.ownerKey Demo.emptyStore
    (Or.inl (by decide))

/-- A successful `Store` of signed data passed the checks, found the name free and
wrote the payload under the name. -/
theorem ProcessSignedData_store_success (env : Env K E) (name data : Bytes)
    (public_key : K) (hashable : Bool) (cs : ChunkStore)
    (h : (ProcessSignedData env kStore name data public_key hashable cs).code = kSuccess) :
    PreOperationChecks env kStore name data public_key hashable = kSuccess ∧
    cs.Has name = false ∧
    (ProcessSignedData env kStore name data public_key hashable cs).store =
      cs.put name (some data) := by
  unfold ProcessSignedData at h ⊢
  by_cases hpre : PreOperationChecks env kStore name data public_key hashable = kSuccess
  · by_cases hhas : cs.Has name = true
    · simp [hpre, hhas] at h
    · by_cases hok : cs.storeOk name data = true
      · simp [hpre, hhas, ChunkStore.Store, hok]
      · simp [hpre, hhas, ChunkStore.Store, hok] at h
  · simp [hpre] at h

/-- What a passed `PreOperationChecks` of a `Store` says about the payload. -/
theorem PreOperationChecks_store_success (env : Env K E) (name data : Bytes)
    (public_key : K) (hashable : Bool)
    (h : PreOperationChecks env kStore name data public_key hashable = kSuccess) :
    ∃ p, env.parseGenericPacket data = some p ∧
      (hashable = true → env.Hash (p.data ++ p.signature) = name) ∧
      env.CheckSignature p.data p.signature public_key = 0 := by
  unfold PreOperationChecks at h
  cases hp : env.parseGenericPacket data with
  | none => simp [hp] at h
  | some p =>
    refine ⟨p, rfl, ?_, ?_⟩
    · intro hb
      by_contra hne
      simp [hp, hb, hne] at h
    · by_contra hsig
      cases hashable <;> simp [hp, hsig] at h
      split at h <;> simp at h

/-- Routing of the signed-data kinds, with the `hashable` flag the dispatcher passes. -/
theorem ProcessData_of_signed (env : Env K E) (op_type : OperationType)
    (name data : Bytes) (public_key : K) (cs : ChunkStore) (hashable : Bool)
    (hop : op_type ≠ kHas)
    (hroute : (hashable = true ∧ (GetDataType name = kHashableSigned ∨
        GetDataType name = kAnmpid ∨ GetDataType name = kMpid)) ∨
      (hashable = false ∧ GetDataType name = kNonHashableSigned)) :
    ProcessData env op_type name data public_key cs =
      ProcessSignedData env op_type name data public_key hashable cs := by
  rcases hroute with ⟨hb, hk⟩ | ⟨hb, hk⟩
  · rw [hb]; exact ProcessData_of_hashable env op_type name data public_key cs hop hk
  · rw [hb]; exact ProcessData_of_nonhashable env op_type name data public_key cs hop hk

/-- C4 (counterexample). Payload `A` is stored with success under a non-hashable signed
name; a following `Store` of the empty payload under the same name does not return
`kDuplicateNameFailure`. -/
theorem C4_second_store_not_duplicate :
    GetDataType Demo.plainName = kNonHashableSigned ∧
    (ProcessData Demo.env kStore Demo.plainName
      (Demo.serializeGenericPacket Demo.plainPacket) Demo.ownerKey
      Demo.emptyStore).code = kSuccess ∧
    (ProcessData Demo.env kStore Demo.plainName [] Demo.ownerKey
      (ProcessData Demo.env kStore Demo.plainName
        (Demo.serializeGenericPacket Demo.plainPacket) Demo.ownerKey
        Demo.emptyStore).store).code ≠ kDuplicateNameFailure := by
  decide

/-- C4 (amended). For every signed-data name, payloads `A` and `B`, keys and store: if
`ProcessData(Store, name, A)` returned `kSuccess`, then a following
`ProcessData(Store, name, B)` returns `kDuplicateNameFailure` when `B` passes
`PreOperationChecks` under the second key and `kPreOperationCheckFailure` when it does
not; in both cases the store is left as the first call left it and the value held
under `name` is still `A`. -/
theorem C4_second_store_rejected (env : Env K E) (name A B : Bytes) (keyA keyB : K)
    (cs : ChunkStore) (hashable : Bool)
    (hroute : (hashable = true ∧ (GetDataType name = kHashableSigned ∨
        GetDataType name = kAnmpid ∨ GetDataType name = kMpid)) ∨
      (hashable = false ∧ GetDataType name = kNonHashableSigned))
    (hfirst : (ProcessData env kStore name A keyA cs).code = kSuccess) :
    (ProcessData env kStore name B keyB
        (ProcessData env kStore name A keyA cs).store).code =
      (if PreOperationChecks env kStore name B keyB hashable = kSuccess
       then kDuplicateNameFailure else kPreOperationCheckFailure) ∧
    (ProcessData env kStore name B keyB
        (ProcessData env kStore name A keyA cs).store).store =
      (ProcessData env kStore name A keyA cs).store ∧
    (ProcessData env kStore name B keyB
        (ProcessData env kStore name A keyA cs).store).store.chunks name = some A ∧
    (ProcessData env kStore name B keyB
        (ProcessData env kStore name A keyA cs).store).store.Get name = A := by
  rw [ProcessData_of_signed env kStore name A keyA cs hashable (by decide) hroute]
    at hfirst ⊢
  obtain ⟨_, _, hstore⟩ := ProcessSignedData_store_success env name A keyA hashable cs hfirst
  rw [hstore]
  rw [ProcessData_of_signed env kStore name B keyB _ hashable (by decide) hroute]
  have hhas : (cs.put name (some A)).Has name = true := ChunkStore.put_Has cs name A
  have hget : (cs.put name (some A)).Get name = A := ChunkStore.put_Get cs name A
  have hchunks : (cs.put name (some A)).chunks name = some A := by simp [ChunkStore.put]
  by_cases hpre : PreOperationChecks env kStore name B keyB hashable = kSuccess
  · have hout : ProcessSignedData env kStore name B keyB hashable (cs.put name (some A)) =
        ⟨kDuplicateNameFailure, cs.put name (some A), []⟩ := by
      simp [ProcessSignedData, hpre, hhas]
    rw [hout]
    simp [hpre, hget, hchunks]
  · have hout : ProcessSignedData env kStore name B keyB hashable (cs.put name (some A)) =
        ⟨kPreOperationCheckFailure, cs.put name (some A), []⟩ := by
      simp [ProcessSignedData, hpre]
    rw [hout]
    simp [hpre, hget, hchunks]

theorem C4_second_store_rejected_witness :
    (ProcessData Demo.env kStore Demo.plainName [] Demo.otherKey
        (ProcessData Demo.env kStore Demo.plainName
          (Demo.serializeGenericPacket Demo.plainPacket) Demo.ownerKey
          Demo.emptyStore).store).code =
      (if PreOperationChecks Demo.env kStore Demo.plainName [] Demo.otherKey false
          = kSuccess
       then kDuplicateNameFailure else kPreOperationCheckFailure) ∧
    (ProcessData Demo.env kStore Demo.plainName [] Demo.otherKey
        (ProcessData Demo.env kStore Demo.plainName
          (Demo.serializeGenericPacket Demo.plainPacket) Demo.ownerKey
          Demo.emptyStore).store).store =
      (ProcessData Demo.env kStore Demo.plainName
        (Demo.serializeGenericPacket Demo.plainPacket) Demo.ownerKey
        Demo.emptyStore).store ∧
    (ProcessData Demo.env kStore Demo.plainName [] Demo.otherKey
        (ProcessData Demo.env kStore Demo.plainName
          (Demo.serializeGenericPacket Demo.plainPacket) Demo.ownerKey
          Demo.emptyStore).store).store.chunks Demo.plainName =
      some (Demo.serializeGenericPacket Demo.plainPacket) ∧
    (ProcessData Demo.env kStore Demo.plainName [] Demo.otherKey
        (ProcessData Demo.env kStore Demo.plainName
          (Demo.serializeGenericPacket Demo.plainPacket) Demo.ownerKey
          Demo.emptyStore).store).store.Get Demo.plainName =
      Demo.serializeGenericPacket Demo.plainPacket :=
  C4_second_store_rejected Demo.env Demo.plainName
    (Demo.serializeGenericPacket Demo.plainPacket) [] Demo.ownerKey Demo.otherKey
    Demo.emptyStore false (Or.inr ⟨rfl, by decide⟩) (by decide)

/-- C5. For every name routed with `hashable = true`, every payload, key and store: if
`ProcessData` with operation `Store` returns `kSuccess`, then the payload parses as a
`GenericPacket` `p` with `Hash (p.data ++ p.signature) = name`, the signature of `p`
verifies over `p.data` under the requester key, and the value held under `name`
afterwards is exactly the payload. -/
theorem C5_hashable_store_success (env : Env K E) (name data : Bytes) (public_key : K)
    (cs : ChunkStore)
    (hkind : GetDataType name = kHashableSigned ∨ GetDataType name = kAnmpid ∨
      GetDataType name = kMpid)
    (hok : (ProcessData env kStore name data public_key cs).code = kSuccess) :
    ∃ p, env.parseGenericPacket data = some p ∧
      env.Hash (p.data ++ p.signature) = name ∧
      env.CheckSignature p.data p.signature public_key = 0 ∧
      (ProcessData env kStore name data public_key cs).store.chunks name = some data ∧
      (ProcessData env kStore name data public_key cs).store.Get name = data := by
  rw [ProcessData_of_hashable env kStore name data public_key cs (by decide) hkind]
    at hok ⊢
  obtain ⟨hpre, _, hstore⟩ :=
    ProcessSignedData_store_success env name data public_key true cs hok
  obtain ⟨p, hp, hhash, hsig⟩ :=
    PreOperationChecks_store_success env name data public_key true hpre
  refine ⟨p, hp, hhash rfl, hsig, ?_, ?_⟩
  · rw [hstore]; simp [ChunkStore.put]
  · rw [hstore]; exact ChunkStore.put_Get cs name data

theorem C5_hashable_store_success_witness :
    ∃ p, Demo.env.parseGenericPacket (Demo.serializeGenericPacket Demo.hashPacket)
        = some p ∧
      Demo.env.Hash (p.data ++ p.signature) = Demo.hashPacketName ∧
      Demo.env.CheckSignature p.data p.signature Demo.ownerKey = 0 ∧
      (ProcessData Demo.env kStore Demo.hashPacketName
        (Demo.serializeGenericPacket Demo.hashPacket) Demo.ownerKey
        Demo.emptyStore).store.chunks Demo.hashPacketName =
        some (Demo.serializeGenericPacket Demo.hashPacket) ∧
      (ProcessData Demo.env kStore Demo.hashPacketName
        (Demo.serializeGenericPacket Demo.hashPacket) Demo.ownerKey
        Demo.emptyStore).store.Get Demo.hashPacketName =
        Demo.serializeGenericPacket Demo.hashPacket :=
  C5_hashable_store_success Demo.env Demo.hashPacketName
    (Demo.serializeGenericPacket Demo.hashPacket) Demo.ownerKey Demo.emptyStore
    (Or.inl (by decide)) (by decide)

/-! ## Owner `Get` on a mailbox -/

/-- What `ProcessMsidData` does on an existing, parseable mailbox for a key that does
not validate the stored self-signature. -/
theorem ProcessMsidData_nonowner (env : Env K E) (op_type : OperationType)
    (name data : Bytes) (public_key : K) (cs : ChunkStore) (w : DataWrapper) (m : MSID)
    (hne : cs.Get name ≠ []) (hw : env.parseDataWrapper (cs.Get name) = some w)
    (hm : env.parseMSID w.signed_data.data = some m)
    (hsig : env.CheckSignature m.public_key m.signature public_key ≠ 0) :
    ProcessMsidData env op_type name data public_key cs =
      if op_type = kStore then
        if m.accepts_new_contacts = true then
          if cs.modifyOk name (rewrapMsid env w { m with encrypted_mcid :=
              m.encrypted_mcid ++ [(env.payloadWrapper data).signed_data.data] }) = true
          then
            ⟨kSuccess, cs.put name (some (rewrapMsid env w { m with encrypted_mcid :=
              m.encrypted_mcid ++ [(env.payloadWrapper data).signed_data.data] })), []⟩
          else ⟨kModifyFailure, cs, []⟩
        else ⟨kWontAcceptContact, cs, []⟩
      else if op_type = kGet then
        ⟨kSuccess, cs, [Signal.string
          (env.serializeGenericPacket ⟨m.public_key, m.signature, kMsid⟩)]⟩
      else ⟨kUnknownFailure, cs, []⟩ := by
  simp only [ProcessMsidData, hne, hw, hm, hsig, ne_eq, not_false_eq_true, if_true]
  by_cases hop : op_type = kStore
  · by_cases hacc : m.accepts_new_contacts = true
    · by_cases hmod : cs.modifyOk name (rewrapMsid env w { m with encrypted_mcid :=
          m.encrypted_mcid ++ [(env.payloadWrapper data).signed_data.data] }) = true
      · simp only [hacc] at hmod
        simp [hop, hacc, ChunkStore.Modify, hmod]
      · simp only [hacc] at hmod
        simp [hop, hacc, ChunkStore.Modify, hmod]
    · simp [hop, hacc]
  · simp [hop]

/-- What `ProcessMmidData` does on an existing, parseable mailbox for a key that does
not validate the stored self-signature. -/
theorem ProcessMmidData_nonowner (env : Env K E) (op_type : OperationType)
    (name data : Bytes) (public_key : K) (cs : ChunkStore) (w : DataWrapper) (m : MMID E)
    (hne : cs.Get name ≠ []) (hw : env.parseDataWrapper (cs.Get name) = some w)
    (hm : env.parseMMID w.signed_data.data = some m)
    (hsig : env.CheckSignature m.public_key m.signature public_key ≠ 0) :
    ProcessMmidData env op_type name data public_key cs =
      if op_type = kStore then
        match env.parseEncrypted (env.payloadWrapper data).signed_data.data with
        | none => ⟨kModifyFailure, cs, []⟩
        | some message =>
          if cs.modifyOk name (rewrapMmid env w { m with encrypted_message :=
              m.encrypted_message ++ [message] }) = true
          then
            ⟨kSuccess, cs.put name (some (rewrapMmid env w { m with encrypted_message :=
              m.encrypted_message ++ [message] })), []⟩
          else ⟨kModifyFailure, cs, []⟩
      else if op_type = kGet then
        ⟨kSuccess, cs, [Signal.string
          (env.serializeGenericPacket ⟨m.public_key, m.signature, kMmid⟩)]⟩
      else ⟨kUnknownFailure, cs, []⟩ := by
  simp only [ProcessMmidData, hne, hw, hm, hsig, ne_eq, not_false_eq_true, if_true]
  by_cases hop : op_type = kStore
  · cases hp : env.parseEncrypted (env.payloadWrapper data).signed_data.data with
    | none => simp [hop, hp]
    | some message =>
      by_cases hmod : cs.modifyOk name (rewrapMmid env w { m with encrypted_message :=
          m.encrypted_message ++ [message] }) = true
      · simp [hop, hp, ChunkStore.Modify, hmod]
      · simp [hop, hp, ChunkStore.Modify, hmod]
  · simp [hop]

/-- The result of `ProcessData` with operation `Has` (lines 68-69). -/
theorem ProcessData_has (env : Env K E) (name data : Bytes) (public_key : K)
    (cs : ChunkStore) :
    ProcessData env kHas name data public_key cs =
      ⟨if cs.Has name = true then kKeyNotUnique else kKeyUnique, cs, []⟩ := by
  simp [ProcessData]

/-- C7. Let the store hold under an Msid or Mmid `name` a wrapper `w` around a mailbox
record `m`, and let the requester key not validate the self-signature of `m`. After
`ProcessData` with any operation and any payload: a record is still held under `name`;
the store is either as it was, or holds under `name` the serialisation of `w` around
`m` with one entry appended to the queue and every other field as it was (so the old
queue is an initial segment of the new one); and the signals fired are either none or
the single one-payload signal carrying the packet built from the public key and the
signature of `m` alone, never a queue entry. The first conjunct is the Msid case, the
second the Mmid case. -/
theorem C7_nonowner_only_appends (env : Env K E) (op_type : OperationType)
    (name data : Bytes) (public_key : K) (cs : ChunkStore) (w : DataWrapper) :
    (∀ m : MSID,
      GetDataType name = kMsid →
      cs.Get name ≠ [] →
      env.parseDataWrapper (cs.Get name) = some w →
      env.parseMSID w.signed_data.data = some m →
      env.CheckSignature m.public_key m.signature public_key ≠ 0 →
      (ProcessData env op_type name data public_key cs).store.Has name = true ∧
      ((ProcessData env op_type name data public_key cs).store = cs ∨
        ∃ c, (ProcessData env op_type name data public_key cs).store =
          cs.put name (some (env.serializeDataWrapper
            ⟨⟨env.serializeMSID
                ⟨m.public_key, m.signature, m.accepts_new_contacts,
                  m.encrypted_mcid ++ [c]⟩,
              w.signed_data.signature, w.signed_data.type⟩⟩))) ∧
      ((ProcessData env op_type name data public_key cs).signals = [] ∨
        (ProcessData env op_type name data public_key cs).signals =
          [Signal.string
            (env.serializeGenericPacket ⟨m.public_key, m.signature, kMsid⟩)])) ∧
    (∀ m : MMID E,
      GetDataType name = kMmid →
      cs.Get name ≠ [] →
      env.parseDataWrapper (cs.Get name) = some w →
      env.parseMMID w.signed_data.data = some m →
      env.CheckSignature m.public_key m.signature public_key ≠ 0 →
      (ProcessData env op_type name data public_key cs).store.Has name = true ∧
      ((ProcessData env op_type name data public_key cs).store = cs ∨
        ∃ c, (ProcessData env op_type name data public_key cs).store =
          cs.put name (some (env.serializeDataWrapper
            ⟨⟨env.serializeMMID ⟨m.public_key, m.signature, m.encrypted_message ++ [c]⟩,
              w.signed_data.signature, w.signed_data.type⟩⟩))) ∧
      ((ProcessData env op_type name data public_key cs).signals = [] ∨
        (ProcessData env op_type name data public_key cs).signals =
          [Signal.string
            (env.serializeGenericPacket ⟨m.public_key, m.signature, kMmid⟩)])) := by
  constructor
  · intro m hkind hne hw hm hsig
    have hhas := ChunkStore.Has_of_Get_ne cs name hne
    by_cases hop : op_type = kHas
    · rw [hop, ProcessData_has]
      exact ⟨hhas, Or.inl rfl, Or.inl rfl⟩
    · rw [ProcessData_of_msid env op_type name data public_key cs hop hkind,
        ProcessMsidData_nonowner env op_type name data public_key cs w m hne hw hm hsig]
      split_ifs
      · exact ⟨ChunkStore.put_Has _ _ _, Or.inr ⟨_, rfl⟩, Or.inl rfl⟩
      · exact ⟨hhas, Or.inl rfl, Or.inl rfl⟩
      · exact ⟨hhas, Or.inl rfl, Or.inl rfl⟩
      · exact ⟨hhas, Or.inl rfl, Or.inr rfl⟩
      · exact ⟨hhas, Or.inl rfl, Or.inl rfl⟩
  · intro m hkind hne hw hm hsig
    have hhas := ChunkStore.Has_of_Get_ne cs name hne
    by_cases hop : op_type = kHas
    · rw [hop, ProcessData_has]
      exact ⟨hhas, Or.inl rfl, Or.inl rfl⟩
    · rw [ProcessData_of_mmid env op_type name data public_key cs hop hkind,
        ProcessMmidData_nonowner env op_type name data public_key cs w m hne hw hm hsig]
      by_cases hst : op_type = kStore
      · rw [if_pos hst]
        cases env.parseEncrypted (env.payloadWrapper data).signed_data.data with
        | none => exact ⟨hhas, Or.inl rfl, Or.inl rfl⟩
        | some message =>
          simp only
          split_ifs
          · exact ⟨ChunkStore.put_Has _ _ _, Or.inr ⟨_, rfl⟩, Or.inl rfl⟩
          · exact ⟨hhas, Or.inl rfl, Or.inl rfl⟩
      · rw [if_neg hst]
        split_ifs
        · exact ⟨hhas, Or.inl rfl, Or.inr rfl⟩
        · exact ⟨hhas, Or.inl rfl, Or.inl rfl⟩

theorem C7_nonowner_only_appends_witness :
    ((ProcessData Demo.env kStore Demo.msidName Demo.contactPayload Demo.otherKey
        (Demo.msidStore true [[5]])).store.Has Demo.msidName = true ∧
      ((ProcessData Demo.env kStore Demo.msidName Demo.contactPayload Demo.otherKey
          (Demo.msidStore true [[5]])).store = Demo.msidStore true [[5]] ∨
        ∃ c, (ProcessData Demo.env kStore Demo.msidName Demo.contactPayload Demo.otherKey
            (Demo.msidStore true [[5]])).store =
          (Demo.msidStore true [[5]]).put Demo.msidName (some
            (Demo.serializeDataWrapper
              (Demo.wrap (Demo.serializeMSID (Demo.msidOf true ([[5]] ++ [c])))
                kMsid)))) ∧
      ((ProcessData Demo.env kStore Demo.msidName Demo.contactPayload Demo.otherKey
          (Demo.msidStore true [[5]])).signals = [] ∨
        (ProcessData Demo.env kStore Demo.msidName Demo.contactPayload Demo.otherKey
          (Demo.msidStore true [[5]])).signals =
          [Signal.string (Demo.env.serializeGenericPacket
            ⟨[1, 2], [Demo.ownerKey, 1, 2], kMsid⟩)])) ∧
    ((ProcessData Demo.env kGet Demo.mmidName [] Demo.otherKey
        (Demo.mmidStore [[5]])).store.Has Demo.mmidName = true ∧
      ((ProcessData Demo.env kGet Demo.mmidName [] Demo.otherKey
          (Demo.mmidStore [[5]])).store = Demo.mmidStore [[5]] ∨
        ∃ c, (ProcessData Demo.env kGet Demo.mmidName [] Demo.otherKey
            (Demo.mmidStore [[5]])).store =
          (Demo.mmidStore [[5]]).put Demo.mmidName (some
            (Demo.serializeDataWrapper
              (Demo.wrap (Demo.serializeMMID (Demo.mmidOf ([[5]] ++ [c])))
                kMmid)))) ∧
      ((ProcessData Demo.env kGet Demo.mmidName [] Demo.otherKey
          (Demo.mmidStore [[5]])).signals = [] ∨
        (ProcessData Demo.env kGet Demo.mmidName [] Demo.otherKey
          (Demo.mmidStore [[5]])).signals =
          [Signal.string (Demo.env.serializeGenericPacket
            ⟨[1, 2], [Demo.ownerKey, 1, 2], kMmid⟩)])) :=
  ⟨(C7_nonowner_only_appends Demo.env kStore Demo.msidName Demo.contactPayload
      Demo.otherKey (Demo.msidStore true [[5]])
      (Demo.wrap (Demo.serializeMSID (Demo.msidOf true [[5]])) kMsid)).1
      (Demo.msidOf true [[5]]) (by decide) (by decide) (by decide) (by decide)
      (by decide),
    (C7_nonowner_only_appends Demo.env kGet Demo.mmidName [] Demo.otherKey
      (Demo.mmidStore [[5]])
      (Demo.wrap (Demo.serializeMMID (Demo.mmidOf [[5]])) kMmid)).2
      (Demo.mmidOf [[5]]) (by decide) (by decide) (by decide) (by decide)
      (by decide)⟩

/-- C8. Let the store hold under an Msid `name` a wrapper `w` around a record `m` with
`accepts_new_contacts = false`, and let the requester key not validate the
self-signature of `m`. Then `ProcessData(Store)` returns `kWontAcceptContact` for
every payload, leaves the store (hence the stored record and its contact queue) as it
was and fires no signal. -/
theorem C8_closed_mailbox_rejects_store (env : Env K E) (name data : Bytes)
    (public_key : K) (cs : ChunkStore) (w : DataWrapper) (m : MSID)
    (hkind : GetDataType name = kMsid)
    (hne : cs.Get name ≠ [])
    (hw : env.parseDataWrapper (cs.Get name) = some w)
    (hm : env.parseMSID w.signed_data.data = some m)
    (hclosed : m.accepts_new_contacts = false)
    (hsig : env.CheckSignature m.public_key m.signature public_key ≠ 0) :
    (ProcessData env kStore name data public_key cs).code = kWontAcceptContact ∧
    (ProcessData env kStore name data public_key cs).store = cs ∧
    (ProcessData env kStore name data public_key cs).signals = [] := by
  rw [ProcessData_of_msid env kStore name data public_key cs (by decide) hkind,
    ProcessMsidData_nonowner env kStore name data public_key cs w m hne hw hm hsig]
  simp [hclosed]

theorem C8_closed_mailbox_rejects_store_witness :
    (ProcessData Demo.env kStore Demo.msidName Demo.contactPayload Demo.otherKey
      (Demo.msidStore false [[5]])).code = kWontAcceptContact ∧
    (ProcessData Demo.env kStore Demo.msidName Demo.contactPayload Demo.otherKey
      (Demo.msidStore false [[5]])).store = Demo.msidStore false [[5]] ∧
    (ProcessData Demo.env kStore Demo.msidName Demo.contactPayload Demo.otherKey
      (Demo.msidStore false [[5]])).signals = [] :=
  C8_closed_mailbox_rejects_store Demo.env Demo.msidName Demo.contactPayload
    Demo.otherKey (Demo.msidStore false [[5]])
    (Demo.wrap (Demo.serializeMSID (Demo.msidOf false [[5]])) kMsid)
    (Demo.msidOf false [[5]]) (by decide) (by decide) (by decide) (by decide)
    (by decide) (by decide)

/-- C9. Let the store hold under an Msid `name` a wrapper `w` around a record `m` with
`accepts_new_contacts = true` and contact queue `q`, let the requester key not validate
the self-signature of `m`, let `c` be the data of the signed packet of the payload, and
let the store accept the `Modify`. Then `ProcessData(Store)` returns `kSuccess` and
fires no signal. The bytes held under `name` afterwards are the serialisation of the
wrapper with the signature and type of `w` whose data is the serialisation of the
record with the public key, signature and flag of `m` and the queue `q ++ [c]` (from an
empty queue, the queue `[c]`); every other name holds what it held. If the codec reads
that wrapper and that record back from their serialisations, the record found under
`name` after the call parses with the public key, signature and flag of `m` and the
queue `q ++ [c]`. -/
theorem C9_open_mailbox_appends_contact (env : Env K E) (name data c : Bytes)
    (public_key : K) (cs : ChunkStore) (w : DataWrapper) (m : MSID)
    (hkind : GetDataType name = kMsid)
    (hne : cs.Get name ≠ [])
    (hw : env.parseDataWrapper (cs.Get name) = some w)
    (hm : env.parseMSID w.signed_data.data = some m)
    (hopen : m.accepts_new_contacts = true)
    (hsig : env.CheckSignature m.public_key m.signature public_key ≠ 0)
    (hc : (env.payloadWrapper data).signed_data.data = c)
    (hmod : cs.modifyOk name (env.serializeDataWrapper
      ⟨⟨env.serializeMSID
          ⟨m.public_key, m.signature, m.accepts_new_contacts, m.encrypted_mcid ++ [c]⟩,
        w.signed_data.signature, w.signed_data.type⟩⟩) = true) :
    (ProcessData env kStore name data public_key cs).code = kSuccess ∧
    (ProcessData env kStore name data public_key cs).signals = [] ∧
    (ProcessData env kStore name data public_key cs).store.chunks name =
      some (env.serializeDataWrapper
        ⟨⟨env.serializeMSID
            ⟨m.public_key, m.signature, m.accepts_new_contacts, m.encrypted_mcid ++ [c]⟩,
          w.signed_data.signature, w.signed_data.type⟩⟩) ∧
    (∀ n, n ≠ name →
      (ProcessData env kStore name data public_key cs).store.chunks n = cs.chunks n) ∧
    (ProcessData env kStore name data public_key cs).store.Get name =
      env.serializeDataWrapper
        ⟨⟨env.serializeMSID
            ⟨m.public_key, m.signature, m.accepts_new_contacts, m.encrypted_mcid ++ [c]⟩,
          w.signed_data.signature, w.signed_data.type⟩⟩ ∧
    (m.encrypted_mcid = [] →
      (ProcessData env kStore name data public_key cs).store.Get name =
        env.serializeDataWrapper
          ⟨⟨env.serializeMSID ⟨m.public_key, m.signature, m.accepts_new_contacts, [c]⟩,
            w.signed_data.signature, w.signed_data.type⟩⟩) ∧
    (env.parseDataWrapper (env.serializeDataWrapper
        ⟨⟨env.serializeMSID
            ⟨m.public_key, m.signature, m.accepts_new_contacts, m.encrypted_mcid ++ [c]⟩,
          w.signed_data.signature, w.signed_data.type⟩⟩) =
        some ⟨⟨env.serializeMSID
            ⟨m.public_key, m.signature, m.accepts_new_contacts, m.encrypted_mcid ++ [c]⟩,
          w.signed_data.signature, w.signed_data.type⟩⟩ →
      env.parseMSID (env.serializeMSID
        ⟨m.public_key, m.signature, m.accepts_new_contacts, m.encrypted_mcid ++ [c]⟩) =
        some ⟨m.public_key, m.signature, m.accepts_new_contacts,
          m.encrypted_mcid ++ [c]⟩ →
      ∃ w2 m2,
        env.parseDataWrapper
          ((ProcessData env kStore name data public_key cs).store.Get name) = some w2 ∧
        env.parseMSID w2.signed_data.data = some m2 ∧
        m2.public_key = m.public_key ∧ m2.signature = m.signature ∧
        m2.accepts_new_contacts = m.accepts_new_contacts ∧
        m2.encrypted_mcid = m.encrypted_mcid ++ [c]) := by
  subst hc
  have hmod2 : cs.modifyOk name (rewrapMsid env w { m with encrypted_mcid :=
      m.encrypted_mcid ++ [(env.payloadWrapper data).signed_data.data] }) = true := hmod
  rw [ProcessData_of_msid env kStore name data public_key cs (by decide) hkind,
    ProcessMsidData_nonowner env kStore name data public_key cs w m hne hw hm hsig]
  rw [if_pos rfl, if_pos hopen, if_pos hmod2]
  have hget := ChunkStore.put_Get cs name (rewrapMsid env w { m with encrypted_mcid :=
      m.encrypted_mcid ++ [(env.payloadWrapper data).signed_data.data] })
  refine ⟨rfl, rfl, ?_, ?_, hget, ?_, ?_⟩
  · show (if name = name then _ else _) = _
    rw [if_pos rfl]
    rfl
  · intro n hn
    show (if n = name then _ else _) = _
    rw [if_neg hn]
  · intro hq
    refine hget.trans ?_
    rw [hq]
    rfl
  · intro hback hrecord
    exact ⟨_, _, (congrArg env.parseDataWrapper hget).trans hback, hrecord, rfl, rfl, rfl,
      rfl⟩

theorem C9_open_mailbox_appends_contact_witness :
    ((ProcessData Demo.env kStore Demo.msidName Demo.contactPayload Demo.otherKey
        (Demo.msidStore true [[5]])).code = kSuccess ∧
      (ProcessData Demo.env kStore Demo.msidName Demo.contactPayload Demo.otherKey
        (Demo.msidStore true [[5]])).store.Get Demo.msidName =
        Demo.serializeDataWrapper
          (Demo.wrap (Demo.serializeMSID (Demo.msidOf true [[5], [8, 8]])) kMsid) ∧
      ∃ w2 m2,
        Demo.parseDataWrapper
          ((ProcessData Demo.env kStore Demo.msidName Demo.contactPayload Demo.otherKey
            (Demo.msidStore true [[5]])).store.Get Demo.msidName) = some w2 ∧
        Demo.parseMSID w2.signed_data.data = some m2 ∧
        m2.public_key = [1, 2] ∧ m2.signature = [Demo.ownerKey, 1, 2] ∧
        m2.accepts_new_contacts = true ∧
        m2.encrypted_mcid = [[5], [8, 8]]) ∧
    (ProcessData Demo.env kStore Demo.msidName Demo.contactPayload Demo.otherKey
      (Demo.msidStore true [])).store.Get Demo.msidName =
      Demo.serializeDataWrapper
        (Demo.wrap (Demo.serializeMSID (Demo.msidOf true [[8, 8]])) kMsid) := by
  have h := C9_open_mailbox_appends_contact Demo.env Demo.msidName Demo.contactPayload
    [8, 8] Demo.otherKey (Demo.msidStore true [[5]])
    (Demo.wrap (Demo.serializeMSID (Demo.msidOf true [[5]])) kMsid)
    (Demo.msidOf true [[5]]) (by decide) (by decide) (by decide) (by decide)
    (by decide) (by decide) (by decide) (by decide)
  have h0 := C9_open_mailbox_appends_contact Demo.env Demo.msidName Demo.contactPayload
    [8, 8] Demo.otherKey (Demo.msidStore true [])
    (Demo.wrap (Demo.serializeMSID (Demo.msidOf true [])) kMsid)
    (Demo.msidOf true []) (by decide) (by decide) (by decide) (by decide)
    (by decide) (by decide) (by decide) (by decide)
  exact ⟨⟨h.1, h.2.2.2.2.1, h.2.2.2.2.2.2 (by decide) (by decide)⟩,
    h0.2.2.2.2.2.1 rfl⟩

/-! ## First write of a mailbox -/

/-- What `ProcessMsidData` does, for any operation, when `Get` returns nothing for the
name. -/
theorem ProcessMsidData_absent (env : Env K E) (op_type : OperationType)
    (name data : Bytes) (public_key : K) (cs : ChunkStore) (habsent : cs.Get name = []) :
    ProcessMsidData env op_type name data public_key cs =
      match env.parseMSID (env.payloadWrapper data).signed_data.data with
      | none => ⟨kStoreFailure, cs, []⟩
      | some m =>
        if env.CheckSignature m.public_key m.signature public_key ≠ 0 then
          ⟨kStoreFailure, cs, []⟩
        else if cs.storeOk name (env.serializeDataWrapper (env.payloadWrapper data))
            = true then
          ⟨kSuccess,
            cs.put name (some (env.serializeDataWrapper (env.payloadWrapper data))), []⟩
        else ⟨kStoreFailure, cs, []⟩ := by
  simp only [ProcessMsidData, habsent, ne_eq, not_true_eq_false, if_false]
  cases env.parseMSID (env.payloadWrapper data).signed_data.data with
  | none => rfl
  | some m =>
    by_cases hsig : env.CheckSignature m.public_key m.signature public_key = 0
    · by_cases hok : cs.storeOk name (env.serializeDataWrapper (env.payloadWrapper data))
          = true
      · simp [hsig, ChunkStore.Store, hok]
      · simp [hsig, ChunkStore.Store, hok]
    · simp [hsig]

/-- Owner `Update` on an existing, parseable social-identity mailbox (lines 303-308). -/
theorem ProcessMsidData_owner_update (env : Env K E) (name data : Bytes) (public_key : K)
    (cs : ChunkStore) (w : DataWrapper) (m : MSID)
    (hne : cs.Get name ≠ []) (hw : env.parseDataWrapper (cs.Get name) = some w)
    (hm : env.parseMSID w.signed_data.data = some m)
    (hsig : env.CheckSignature m.public_key m.signature public_key = 0) :
    ProcessMsidData env kUpdate name data public_key cs = ⟨kSuccess, cs, []⟩ := by
  simp [ProcessMsidData, hne, hw, hm, hsig]

/-- C10. Let `name` be an Msid name for which `Get` returns nothing, and let `a` be the
serialisation of the wrapper of the payload. `ProcessData(Store)` returns `kSuccess`
if and only if the data of the signed packet of the payload parses as an `MSID`
record whose signature validates its public key under the requester key and the store
accepts `Store(name, a)`. In that case the store afterwards holds `a` under `name`
and no signal is fired; and if `a` is non-empty and reads back as the wrapper of the
payload, then the stored record satisfies the owner conditions for the same key (it is
found, parses, and its self-signature validates) and a following `Update` with that
key takes the owner branch: it returns `kSuccess` and changes nothing. In every other
case the call returns `kStoreFailure`, leaves the store as it was and fires no
signal. -/
theorem C10_first_store_of_msid (env : Env K E) (name data : Bytes) (public_key : K)
    (cs : ChunkStore)
    (hkind : GetDataType name = kMsid)
    (habsent : cs.Get name = []) :
    ((ProcessData env kStore name data public_key cs).code = kSuccess ↔
      (∃ m, env.parseMSID (env.payloadWrapper data).signed_data.data = some m ∧
        env.CheckSignature m.public_key m.signature public_key = 0) ∧
      cs.storeOk name (env.serializeDataWrapper (env.payloadWrapper data)) = true) ∧
    ((ProcessData env kStore name data public_key cs).code = kSuccess →
      (ProcessData env kStore name data public_key cs).store =
        cs.put name (some (env.serializeDataWrapper (env.payloadWrapper data))) ∧
      (ProcessData env kStore name data public_key cs).store.Get name =
        env.serializeDataWrapper (env.payloadWrapper data) ∧
      (ProcessData env kStore name data public_key cs).signals = [] ∧
      (env.serializeDataWrapper (env.payloadWrapper data) ≠ [] →
        env.parseDataWrapper (env.serializeDataWrapper (env.payloadWrapper data)) =
          some (env.payloadWrapper data) →
        (ProcessData env kStore name data public_key cs).store.Get name ≠ [] ∧
        (∃ m, env.parseDataWrapper
            ((ProcessData env kStore name data public_key cs).store.Get name) =
              some (env.payloadWrapper data) ∧
          env.parseMSID (env.payloadWrapper data).signed_data.data = some m ∧
          env.CheckSignature m.public_key m.signature public_key = 0) ∧
        ∀ data2, ProcessData env kUpdate name data2 public_key
            (ProcessData env kStore name data public_key cs).store =
          ⟨kSuccess, (ProcessData env kStore name data public_key cs).store, []⟩)) ∧
    ((ProcessData env kStore name data public_key cs).code ≠ kSuccess →
      (ProcessData env kStore name data public_key cs).code = kStoreFailure ∧
      (ProcessData env kStore name data public_key cs).store = cs ∧
      (ProcessData env kStore name data public_key cs).signals = []) := by
  rw [ProcessData_of_msid env kStore name data public_key cs (by decide) hkind,
    ProcessMsidData_absent env kStore name data public_key cs habsent]
  cases hp : env.parseMSID (env.payloadWrapper data).signed_data.data with
  | none => simp
  | some m =>
    by_cases hsig : env.CheckSignature m.public_key m.signature public_key = 0
    · by_cases hok : cs.storeOk name (env.serializeDataWrapper (env.payloadWrapper data))
          = true
      · dsimp only
        rw [if_neg (not_not.mpr hsig), if_pos hok]
        have hget := ChunkStore.put_Get cs name
          (env.serializeDataWrapper (env.payloadWrapper data))
        refine ⟨⟨fun _ => ⟨⟨m, rfl, hsig⟩, hok⟩, fun _ => rfl⟩, fun _ => ?_,
          fun h => absurd rfl h⟩
        refine ⟨rfl, hget, rfl, fun hne hback => ?_⟩
        simp only at hget ⊢
        refine ⟨by rw [hget]; exact hne, ⟨m, by rw [hget]; exact hback, rfl, hsig⟩,
          fun data2 => ?_⟩
        rw [ProcessData_of_msid env kUpdate name data2 public_key _ (by decide) hkind]
        exact ProcessMsidData_owner_update env name data2 public_key _
          (env.payloadWrapper data) m (by rw [hget]; exact hne)
          (by rw [hget]; exact hback) hp hsig
      · simp [hsig, hok]
    · simp [hsig]

theorem C10_first_store_of_msid_witness :
    (ProcessData Demo.env kStore Demo.msidName Demo.mailboxPayload Demo.ownerKey
      Demo.emptyStore).code = kSuccess ∧
    (ProcessData Demo.env kStore Demo.msidName Demo.mailboxPayload Demo.ownerKey
      Demo.emptyStore).store.Get Demo.msidName = Demo.mailboxPayload ∧
    (ProcessData Demo.env kStore Demo.msidName Demo.mailboxPayload Demo.otherKey
      Demo.emptyStore).code = kStoreFailure ∧
    ProcessData Demo.env kUpdate Demo.msidName [] Demo.ownerKey
        (ProcessData Demo.env kStore Demo.msidName Demo.mailboxPayload Demo.ownerKey
          Demo.emptyStore).store =
      ⟨kSuccess, (ProcessData Demo.env kStore Demo.msidName Demo.mailboxPayload
        Demo.ownerKey Demo.emptyStore).store, []⟩ := by
  have h := C10_first_store_of_msid Demo.env Demo.msidName Demo.mailboxPayload
    Demo.ownerKey Demo.emptyStore (by decide) (by decide)
  have hok := h.1.mpr (by decide)
  have hs := h.2.1 hok
  have hlater := hs.2.2.2 (by decide) (by decide)
  have h2 := C10_first_store_of_msid Demo.env Demo.msidName Demo.mailboxPayload
    Demo.otherKey Demo.emptyStore (by decide) (by decide)
  have hfail := h2.2.2 (by decide)
  exact ⟨hok, hs.2.1, hfail.1, hlater.2.2 []⟩

/-! ## Results other than `kSuccess` and the chunk store -/

theorem ChunkStore.Store_rejected (cs : ChunkStore) (name content : Bytes)
    (h : (cs.Store name content).1 = false) : (cs.Store name content).2 = cs := by
  by_cases hok : cs.storeOk name content = true <;> simp_all [ChunkStore.Store]

theorem ChunkStore.Modify_rejected (cs : ChunkStore) (name content : Bytes)
    (h : (cs.Modify name content).1 = false) : (cs.Modify name content).2 = cs := by
  by_cases hok : cs.modifyOk name content = true <;> simp_all [ChunkStore.Modify]

theorem ChunkStore.Delete_rejected (cs : ChunkStore) (name : Bytes)
    (h : (cs.Delete name).1 = false) : (cs.Delete name).2 = cs := by
  by_cases hok : cs.deleteOk name = true <;> simp_all [ChunkStore.Delete]

theorem ChunkStore.Delete_accepted (cs : ChunkStore) (name : Bytes)
    (h : ¬ (cs.Delete name).1 = false) : (cs.Delete name).2 = cs.put name none := by
  by_cases hok : cs.deleteOk name = true <;> simp_all [ChunkStore.Delete]

theorem ProcessSignedData_failure_frame (env : Env K E) (op_type : OperationType)
    (name data : Bytes) (public_key : K) (hashable : Bool) (cs : ChunkStore)
    (h : (ProcessSignedData env op_type name data public_key hashable cs).code ≠ kSuccess) :
    (ProcessSignedData env op_type name data public_key hashable cs).store = cs := by
  unfold ProcessSignedData at h ⊢
  cases op_type <;> dsimp only at h ⊢ <;> split_ifs at h ⊢ <;>
    first
      | rfl
      | exact ChunkStore.Store_rejected _ _ _ ‹_›
      | exact ChunkStore.Modify_rejected _ _ _ ‹_›
      | exact ChunkStore.Delete_rejected _ _ ‹_›
      | exact absurd rfl h

theorem ProcessMsidData_failure_frame (env : Env K E) (op_type : OperationType)
    (name data : Bytes) (public_key : K) (cs : ChunkStore)
    (h : (ProcessMsidData env op_type name data public_key cs).code ≠ kSuccess) :
    (ProcessMsidData env op_type name data public_key cs).store = cs ∨
      (op_type = kDelete ∧
        (ProcessMsidData env op_type name data public_key cs).code = kUnknownFailure ∧
        (ProcessMsidData env op_type name data public_key cs).store = cs.put name none) := by
  by_cases habs : cs.Get name = []
  · rw [ProcessMsidData_absent env op_type name data public_key cs habs] at h ⊢
    left
    revert h
    cases env.parseMSID (env.payloadWrapper data).signed_data.data with
    | none => intro _; rfl
    | some m =>
      intro h
      dsimp only at h ⊢
      split_ifs at h ⊢ <;> first | rfl | exact absurd rfl h
  · cases hw : env.parseDataWrapper (cs.Get name) with
    | none => left; simp [ProcessMsidData, habs, hw]
    | some w =>
      cases hm : env.parseMSID w.signed_data.data with
      | none => left; simp [ProcessMsidData, habs, hw, hm]
      | some m =>
        by_cases hsig : env.CheckSignature m.public_key m.signature public_key = 0
        · simp only [ProcessMsidData, habs, hw, hm, hsig, ne_eq, not_false_eq_true,
            not_true_eq_false, if_true, if_false] at h ⊢
          cases op_type <;> dsimp only at h ⊢ <;> (try split_ifs at h ⊢) <;>
            first
              | exact Or.inl rfl
              | exact Or.inl (ChunkStore.Modify_rejected _ _ _ ‹_›)
              | exact Or.inl (ChunkStore.Delete_rejected _ _ ‹_›)
              | exact Or.inr ⟨rfl, rfl, ChunkStore.Delete_accepted _ _ ‹_›⟩
              | exact absurd rfl h
        · rw [ProcessMsidData_nonowner env op_type name data public_key cs w m habs hw hm
            hsig] at h ⊢
          left
          split_ifs at h ⊢ <;> first | rfl | exact absurd rfl h

theorem ProcessMmidData_failure_frame (env : Env K E) (op_type : OperationType)
    (name data : Bytes) (public_key : K) (cs : ChunkStore)
    (h : (ProcessMmidData env op_type name data public_key cs).code ≠ kSuccess) :
    (ProcessMmidData env op_type name data public_key cs).store = cs ∨
      (op_type = kDelete ∧
        (ProcessMmidData env op_type name data public_key cs).code = kUnknownFailure ∧
        (ProcessMmidData env op_type name data public_key cs).store = cs.put name none) := by
  by_cases habs : cs.Get name = []
  · left
    simp only [ProcessMmidData, habs, ne_eq, not_true_eq_false, if_false] at h ⊢
    revert h
    cases env.parseMMID (env.payloadWrapper data).signed_data.data with
    | none => intro _; rfl
    | some m =>
      intro h
      dsimp only at h ⊢
      split_ifs at h ⊢ <;>
        first
          | rfl
          | exact ChunkStore.Store_rejected _ _ _ ‹_›
          | exact absurd rfl h
  · cases hw : env.parseDataWrapper (cs.Get name) with
    | none => left; simp [ProcessMmidData, habs, hw]
    | some w =>
      cases hm : env.parseMMID w.signed_data.data with
      | none => left; simp [ProcessMmidData, habs, hw, hm]
      | some m =>
        by_cases hsig : env.CheckSignature m.public_key m.signature public_key = 0
        · simp only [ProcessMmidData, habs, hw, hm, hsig, ne_eq, not_false_eq_true,
            not_true_eq_false, if_true, if_false] at h ⊢
          cases op_type <;> dsimp only at h ⊢ <;> (try split_ifs at h ⊢) <;>
            first
              | exact Or.inl rfl
              | exact Or.inl (ChunkStore.Modify_rejected _ _ _ ‹_›)
              | exact Or.inl (ChunkStore.Delete_rejected _ _ ‹_›)
              | exact Or.inr ⟨rfl, rfl, ChunkStore.Delete_accepted _ _ ‹_›⟩
              | exact absurd rfl h
        · rw [ProcessMmidData_nonowner env op_type name data public_key cs w m habs hw hm
            hsig] at h ⊢
          left
          by_cases hst : op_type = kStore
          · rw [if_pos hst] at h ⊢
            revert h
            cases env.parseEncrypted (env.payloadWrapper data).signed_data.data with
            | none => intro _; rfl
            | some message =>
              intro h
              dsimp only at h ⊢
              split_ifs at h ⊢ <;> first | rfl | exact absurd rfl h
          · rw [if_neg hst] at h ⊢
            split_ifs at h ⊢ <;> rfl

/-- Apart from the owner `Delete` of a mailbox, a result other than `kSuccess` leaves the
chunk store as it was: for every operation, name, payload, key and store, either the
store is unchanged, or the call is a `Delete` on an Msid or Mmid name that removed the
record and returned `kUnknownFailure`. -/
theorem ProcessData_failure_frame (env : Env K E) (op_type : OperationType)
    (name data : Bytes) (public_key : K) (cs : ChunkStore)
    (h : (ProcessData env op_type name data public_key cs).code ≠ kSuccess) :
    (ProcessData env op_type name data public_key cs).store = cs ∨
      (op_type = kDelete ∧ (GetDataType name = kMsid ∨ GetDataType name = kMmid) ∧
        (ProcessData env op_type name data public_key cs).code = kUnknownFailure ∧
        (ProcessData env op_type name data public_key cs).store = cs.put name none) := by
  by_cases hop : op_type = kHas
  · rw [hop, ProcessData_has]
    exact Or.inl rfl
  by_cases hh : GetDataType name = kHashableSigned ∨ GetDataType name = kAnmpid ∨
      GetDataType name = kMpid
  · rw [ProcessData_of_hashable env op_type name data public_key cs hop hh] at h ⊢
    exact Or.inl (ProcessSignedData_failure_frame env op_type name data public_key true cs h)
  by_cases hn : GetDataType name = kNonHashableSigned
  · rw [ProcessData_of_nonhashable env op_type name data public_key cs hop hn] at h ⊢
    exact Or.inl (ProcessSignedData_failure_frame env op_type name data public_key false cs h)
  by_cases hs : GetDataType name = kMsid
  · rw [ProcessData_of_msid env op_type name data public_key cs hop hs] at h ⊢
    rcases ProcessMsidData_failure_frame env op_type name data public_key cs h with hf | hf
    · exact Or.inl hf
    · exact Or.inr ⟨hf.1, Or.inl hs, hf.2⟩
  by_cases hm : GetDataType name = kMmid
  · rw [ProcessData_of_mmid env op_type name data public_key cs hop hm] at h ⊢
    rcases ProcessMmidData_failure_frame env op_type name data public_key cs h with hf | hf
    · exact Or.inl hf
    · exact Or.inr ⟨hf.1, Or.inr hm, hf.2⟩
  · left
    unfold ProcessData
    have h1 : ¬ (GetDataType name = kAnmpid ∨ GetDataType name = kMpid ∨
        GetDataType name = kHashableSigned) := by
      rintro (h1 | h1 | h1)
      · exact hh (Or.inr (Or.inl h1))
      · exact hh (Or.inr (Or.inr h1))
      · exact hh (Or.inl h1)
    rw [if_neg hop, if_neg h1, if_neg hn, if_neg hs, if_neg hm]

/-- On an existing, parseable mailbox, `ProcessData` with operation `Delete` returns
`kSuccess` for no key: the owner branch assigns it no path to `return kSuccess`, and
the non-owner branch forbids the operation. The first conjunct is the Msid case, the
second the Mmid case. -/
theorem ProcessData_delete_mailbox_not_success (env : Env K E) (name data : Bytes)
    (public_key : K) (cs : ChunkStore) (w : DataWrapper)
    (hne : cs.Get name ≠ []) (hw : env.parseDataWrapper (cs.Get name) = some w) :
    (∀ m : MSID, GetDataType name = kMsid → env.parseMSID w.signed_data.data = some m →
      (ProcessData env kDelete name data public_key cs).code ≠ kSuccess) ∧
    (∀ m : MMID E, GetDataType name = kMmid → env.parseMMID w.signed_data.data = some m →
      (ProcessData env kDelete name data public_key cs).code ≠ kSuccess) := by
  constructor
  · intro m hkind hm
    rw [ProcessData_of_msid env kDelete name data public_key cs (by decide) hkind]
    by_cases hsig : env.CheckSignature m.public_key m.signature public_key = 0
    · simp only [ProcessMsidData, hne, hw, hm, hsig, ne_eq, not_false_eq_true,
        not_true_eq_false, if_true, if_false]
      split_ifs <;> simp
    · rw [ProcessMsidData_nonowner env kDelete name data public_key cs w m hne hw hm hsig]
      simp
  · intro m hkind hm
    rw [ProcessData_of_mmid env kDelete name data public_key cs (by decide) hkind]
    by_cases hsig : env.CheckSignature m.public_key m.signature public_key = 0
    · simp only [ProcessMmidData, hne, hw, hm, hsig, ne_eq, not_false_eq_true,
        not_true_eq_false, if_true, if_false]
      split_ifs <;> simp
    · rw [ProcessMmidData_nonowner env kDelete name data public_key cs w m hne hw hm hsig]
      simp

/-! ## Non-owner `Get` and `Update`, owner `Update` -/

/-- C11. Let the store hold under an Msid `name` a wrapper `w` around a record `m`, and
let the requester key not validate the self-signature of `m`. Then `ProcessData(Get)`
returns `kSuccess`, leaves the store as it was and fires exactly one one-payload
signal, the serialisation of the packet with data the public key of `m`, signature the
signature of `m` and type `kMsid`. A second mailbox (any name, store and wrapper) whose
record has the same public key and signature, whatever its contact queue and
`accepts_new_contacts` flag, yields the same signals. -/
theorem C11_nonowner_get_public_identity (env : Env K E) (name data : Bytes)
    (public_key : K) (cs : ChunkStore) (w : DataWrapper) (m : MSID)
    (hkind : GetDataType name = kMsid)
    (hne : cs.Get name ≠ [])
    (hw : env.parseDataWrapper (cs.Get name) = some w)
    (hm : env.parseMSID w.signed_data.data = some m)
    (hsig : env.CheckSignature m.public_key m.signature public_key ≠ 0) :
    (ProcessData env kGet name data public_key cs).code = kSuccess ∧
    (ProcessData env kGet name data public_key cs).store = cs ∧
    (ProcessData env kGet name data public_key cs).signals =
      [Signal.string (env.serializeGenericPacket ⟨m.public_key, m.signature, kMsid⟩)] ∧
    (∀ (name2 data2 : Bytes) (cs2 : ChunkStore) (w2 : DataWrapper)
        (queue2 : List Bytes) (accepts2 : Bool),
      GetDataType name2 = kMsid →
      cs2.Get name2 ≠ [] →
      env.parseDataWrapper (cs2.Get name2) = some w2 →
      env.parseMSID w2.signed_data.data =
        some ⟨m.public_key, m.signature, accepts2, queue2⟩ →
      (ProcessData env kGet name2 data2 public_key cs2).signals =
        (ProcessData env kGet name data public_key cs).signals) := by
  have hfirst : ProcessData env kGet name data public_key cs =
      ⟨kSuccess, cs, [Signal.string
        (env.serializeGenericPacket ⟨m.public_key, m.signature, kMsid⟩)]⟩ := by
    rw [ProcessData_of_msid env kGet name data public_key cs (by decide) hkind,
      ProcessMsidData_nonowner env kGet name data public_key cs w m hne hw hm hsig]
    simp
  rw [hfirst]
  refine ⟨rfl, rfl, rfl, ?_⟩
  intro name2 data2 cs2 w2 queue2 accepts2 hkind2 hne2 hw2 hm2
  rw [ProcessData_of_msid env kGet name2 data2 public_key cs2 (by decide) hkind2,
    ProcessMsidData_nonowner env kGet name2 data2 public_key cs2 w2
      ⟨m.public_key, m.signature, accepts2, queue2⟩ hne2 hw2 hm2 hsig]
  simp

theorem C11_nonowner_get_public_identity_witness :
    (ProcessData Demo.env kGet Demo.msidName [] Demo.otherKey
      (Demo.msidStore true [[5]])).code = kSuccess ∧
    (ProcessData Demo.env kGet Demo.msidName [] Demo.otherKey
      (Demo.msidStore true [[5]])).signals =
      [Signal.string (Demo.env.serializeGenericPacket
        ⟨[1, 2], [Demo.ownerKey, 1, 2], kMsid⟩)] ∧
    (ProcessData Demo.env kGet Demo.msidName [] Demo.otherKey
      (Demo.msidStore false [[6], [7]])).signals =
      (ProcessData Demo.env kGet Demo.msidName [] Demo.otherKey
        (Demo.msidStore true [[5]])).signals := by
  have h := C11_nonowner_get_public_identity Demo.env Demo.msidName [] Demo.otherKey
    (Demo.msidStore true [[5]])
    (Demo.wrap (Demo.serializeMSID (Demo.msidOf true [[5]])) kMsid)
    (Demo.msidOf true [[5]]) (by decide) (by decide) (by decide) (by decide)
    (by decide)
  exact ⟨h.1, h.2.2.1, h.2.2.2 Demo.msidName [] (Demo.msidStore false [[6], [7]])
    (Demo.wrap (Demo.serializeMSID (Demo.msidOf false [[6], [7]])) kMsid)
    [[6], [7]] false (by decide) (by decide) (by decide) (by decide)⟩

/-- C15. Let the store hold under an Msid `name` a wrapper `w` around a record `m`, and
let the requester key validate the self-signature of `m`. Then `ProcessData(Update)`
returns `kSuccess` for every payload, leaves the store as it was and fires no
signal. -/
theorem C15_owner_update_is_noop (env : Env K E) (name data : Bytes)
    (public_key : K) (cs : ChunkStore) (w : DataWrapper) (m : MSID)
    (hkind : GetDataType name = kMsid)
    (hne : cs.Get name ≠ [])
    (hw : env.parseDataWrapper (cs.Get name) = some w)
    (hm : env.parseMSID w.signed_data.data = some m)
    (hsig : env.CheckSignature m.public_key m.signature public_key = 0) :
    (ProcessData env kUpdate name data public_key cs).code = kSuccess ∧
    (ProcessData env kUpdate name data public_key cs).store = cs ∧
    (ProcessData env kUpdate name data public_key cs).signals = [] := by
  rw [ProcessData_of_msid env kUpdate name data public_key cs (by decide) hkind,
    ProcessMsidData_owner_update env name data public_key cs w m hne hw hm hsig]
  exact ⟨rfl, rfl, rfl⟩

theorem C15_owner_update_is_noop_witness :
    (ProcessData Demo.env kUpdate Demo.msidName Demo.contactPayload Demo.ownerKey
      (Demo.msidStore true [[5]])).code = kSuccess ∧
    (ProcessData Demo.env kUpdate Demo.msidName Demo.contactPayload Demo.ownerKey
      (Demo.msidStore true [[5]])).store = Demo.msidStore true [[5]] ∧
    (ProcessData Demo.env kUpdate Demo.msidName Demo.contactPayload Demo.ownerKey
      (Demo.msidStore true [[5]])).signals = [] :=
  C15_owner_update_is_noop Demo.env Demo.msidName Demo.contactPayload Demo.ownerKey
    (Demo.msidStore true [[5]])
    (Demo.wrap (Demo.serializeMSID (Demo.msidOf true [[5]])) kMsid)
    (Demo.msidOf true [[5]]) (by decide) (by decide) (by decide) (by decide)
    (by decide)

/-- C16 (counterexample). The demo store holds a parseable social-identity mailbox and
`otherKey` does not validate its self-signature; `ProcessData(Update)` with that key
does not return `kSuccess`. -/
theorem C16_nonowner_update_not_success :
    GetDataType Demo.msidName = kMsid ∧
    Demo.env.parseDataWrapper ((Demo.msidStore true [[5]]).Get Demo.msidName) =
      some (Demo.wrap (Demo.serializeMSID (Demo.msidOf true [[5]])) kMsid) ∧
    Demo.env.parseMSID (Demo.serializeMSID (Demo.msidOf true [[5]])) =
      some (Demo.msidOf true [[5]]) ∧
    Demo.env.CheckSignature (Demo.msidOf true [[5]]).public_key
      (Demo.msidOf true [[5]]).signature Demo.otherKey ≠ 0 ∧
    (ProcessData Demo.env kUpdate Demo.msidName [] Demo.otherKey
      (Demo.msidStore true [[5]])).code ≠ kSuccess := by
  decide

/-- C16 (amended). Let the store hold under an Msid `name` a wrapper `w` around a record
`m`, and let the requester key not validate the self-signature of `m`. Then
`ProcessData(Update)` returns `kUnknownFailure` for every payload, leaves the store as
it was and fires no signal. -/
theorem C16_nonowner_update_forbidden (env : Env K E) (name data : Bytes)
    (public_key : K) (cs : ChunkStore) (w : DataWrapper) (m : MSID)
    (hkind : GetDataType name = kMsid)
    (hne : cs.Get name ≠ [])
    (hw : env.parseDataWrapper (cs.Get name) = some w)
    (hm : env.parseMSID w.signed_data.data = some m)
    (hsig : env.CheckSignature m.public_key m.signature public_key ≠ 0) :
    (ProcessData env kUpdate name data public_key cs).code = kUnknownFailure ∧
    (ProcessData env kUpdate name data public_key cs).store = cs ∧
    (ProcessData env kUpdate name data public_key cs).signals = [] := by
  rw [ProcessData_of_msid env kUpdate name data public_key cs (by decide) hkind,
    ProcessMsidData_nonowner env kUpdate name data public_key cs w m hne hw hm hsig]
  simp

theorem C16_nonowner_update_forbidden_witness :
    (ProcessData Demo.env kUpdate Demo.msidName [] Demo.otherKey
      (Demo.msidStore true [[5]])).code = kUnknownFailure ∧
    (ProcessData Demo.env kUpdate Demo.msidName [] Demo.otherKey
      (Demo.msidStore true [[5]])).store = Demo.msidStore true [[5]] ∧
    (ProcessData Demo.env kUpdate Demo.msidName [] Demo.otherKey
      (Demo.msidStore true [[5]])).signals = [] :=
  C16_nonowner_update_forbidden Demo.env Demo.msidName [] Demo.otherKey
    (Demo.msidStore true [[5]])
    (Demo.wrap (Demo.serializeMSID (Demo.msidOf true [[5]])) kMsid)
    (Demo.msidOf true [[5]]) (by decide) (by decide) (by decide) (by decide)
    (by decide)

/-! ## Non-owner `Store` on a messaging mailbox -/

/-- C14 (counterexample). The demo store holds a parseable messaging mailbox and accepts
every `Modify`; `otherKey` does not validate its self-signature; the data of the signed
packet of the empty payload does not parse as an `encrypted_message` entry.
`ProcessData(Store)` returns `kModifyFailure`, a rejection, and the store keeps the
record it held. -/
theorem C14_nonowner_store_rejects_unparsed_message :
    GetDataType Demo.mmidName = kMmid ∧
    Demo.env.parseDataWrapper ((Demo.mmidStore [[5]]).Get Demo.mmidName) =
      some (Demo.wrap (Demo.serializeMMID (Demo.mmidOf [[5]])) kMmid) ∧
    Demo.env.parseMMID (Demo.serializeMMID (Demo.mmidOf [[5]])) =
      some (Demo.mmidOf [[5]]) ∧
    Demo.env.CheckSignature (Demo.mmidOf [[5]]).public_key
      (Demo.mmidOf [[5]]).signature Demo.otherKey ≠ 0 ∧
    (∀ name content, (Demo.mmidStore [[5]]).modifyOk name content = true) ∧
    Demo.env.parseEncrypted (Demo.env.payloadWrapper []).signed_data.data = none ∧
    (ProcessData Demo.env kStore Demo.mmidName [] Demo.otherKey
      (Demo.mmidStore [[5]])).code = kModifyFailure ∧
    (ProcessData Demo.env kStore Demo.mmidName [] Demo.otherKey
      (Demo.mmidStore [[5]])).store.Get Demo.mmidName =
      (Demo.mmidStore [[5]]).Get Demo.mmidName := by
  refine ⟨by decide, by decide, by decide, by decide, fun _ _ => rfl, by decide,
    by decide, by decide⟩

/-- C14 (amended). Let the store hold under an Mmid `name` a wrapper `w` around a record
`m` with message queue `q`, and let the requester key not validate the self-signature
of `m`. If the data of the signed packet of the payload parses as an
`encrypted_message` entry `e` and the store accepts the `Modify`, then
`ProcessData(Store)` returns `kSuccess` and fires no signal; the bytes held under
`name` afterwards are the serialisation of the wrapper with the signature and type of
`w` whose data is the serialisation of the record with the public key and signature of
`m` and the queue `q ++ [e]`; every other name holds what it held; and if the codec
reads that wrapper and that record back from their serialisations, the record found
under `name` after the call parses with the public key and signature of `m` and the
queue `q ++ [e]`. If the data of the payload does not parse, the call returns
`kModifyFailure`, leaves the store as it was and fires no signal. In no case does the
call return `kWontAcceptContact`. -/
theorem C14_nonowner_store_appends_message (env : Env K E) (name data : Bytes)
    (public_key : K) (cs : ChunkStore) (w : DataWrapper) (m : MMID E)
    (hkind : GetDataType name = kMmid)
    (hne : cs.Get name ≠ [])
    (hw : env.parseDataWrapper (cs.Get name) = some w)
    (hm : env.parseMMID w.signed_data.data = some m)
    (hsig : env.CheckSignature m.public_key m.signature public_key ≠ 0) :
    (∀ e : E, env.parseEncrypted (env.payloadWrapper data).signed_data.data = some e →
      cs.modifyOk name (env.serializeDataWrapper
        ⟨⟨env.serializeMMID ⟨m.public_key, m.signature, m.encrypted_message ++ [e]⟩,
          w.signed_data.signature, w.signed_data.type⟩⟩) = true →
      (ProcessData env kStore name data public_key cs).code = kSuccess ∧
      (ProcessData env kStore name data public_key cs).signals = [] ∧
      (ProcessData env kStore name data public_key cs).store.chunks name =
        some (env.serializeDataWrapper
          ⟨⟨env.serializeMMID ⟨m.public_key, m.signature, m.encrypted_message ++ [e]⟩,
            w.signed_data.signature, w.signed_data.type⟩⟩) ∧
      (∀ n, n ≠ name →
        (ProcessData env kStore name data public_key cs).store.chunks n =
          cs.chunks n) ∧
      (ProcessData env kStore name data public_key cs).store.Get name =
        env.serializeDataWrapper
          ⟨⟨env.serializeMMID ⟨m.public_key, m.signature, m.encrypted_message ++ [e]⟩,
            w.signed_data.signature, w.signed_data.type⟩⟩ ∧
      (env.parseDataWrapper (env.serializeDataWrapper
          ⟨⟨env.serializeMMID ⟨m.public_key, m.signature, m.encrypted_message ++ [e]⟩,
            w.signed_data.signature, w.signed_data.type⟩⟩) =
          some ⟨⟨env.serializeMMID
              ⟨m.public_key, m.signature, m.encrypted_message ++ [e]⟩,
            w.signed_data.signature, w.signed_data.type⟩⟩ →
        env.parseMMID (env.serializeMMID
          ⟨m.public_key, m.signature, m.encrypted_message ++ [e]⟩) =
          some ⟨m.public_key, m.signature, m.encrypted_message ++ [e]⟩ →
        ∃ w2 m2,
          env.parseDataWrapper
            ((ProcessData env kStore name data public_key cs).store.Get name) =
              some w2 ∧
          env.parseMMID w2.signed_data.data = some m2 ∧
          m2.public_key = m.public_key ∧ m2.signature = m.signature ∧
          m2.encrypted_message = m.encrypted_message ++ [e])) ∧
    (env.parseEncrypted (env.payloadWrapper data).signed_data.data = none →
      (ProcessData env kStore name data public_key cs).code = kModifyFailure ∧
      (ProcessData env kStore name data public_key cs).store = cs ∧
      (ProcessData env kStore name data public_key cs).signals = []) ∧
    (ProcessData env kStore name data public_key cs).code ≠ kWontAcceptContact := by
  rw [ProcessData_of_mmid env kStore name data public_key cs (by decide) hkind,
    ProcessMmidData_nonowner env kStore name data public_key cs w m hne hw hm hsig,
    if_pos rfl]
  cases hp : env.parseEncrypted (env.payloadWrapper data).signed_data.data with
  | none =>
    dsimp only
    refine ⟨?_, ?_, ?_⟩
    · intro e he
      cases he
    · intro _
      exact ⟨rfl, rfl, rfl⟩
    · simp
  | some message =>
    dsimp only
    refine ⟨?_, ?_, ?_⟩
    · intro e he hmod
      cases he
      have hmod2 : cs.modifyOk name (rewrapMmid env w { m with encrypted_message :=
          m.encrypted_message ++ [message] }) = true := hmod
      rw [if_pos hmod2]
      have hget := ChunkStore.put_Get cs name (rewrapMmid env w
        { m with encrypted_message := m.encrypted_message ++ [message] })
      refine ⟨rfl, rfl, ?_, ?_, hget, ?_⟩
      · show (if name = name then _ else _) = _
        rw [if_pos rfl]
        rfl
      · intro n hn
        show (if n = name then _ else _) = _
        rw [if_neg hn]
      · intro hback hrecord
        exact ⟨_, _, (congrArg env.parseDataWrapper hget).trans hback, hrecord, rfl,
          rfl, rfl⟩
    · intro h
      cases h
    · split_ifs <;> simp

theorem C14_nonowner_store_appends_message_witness :
    (ProcessData Demo.env kStore Demo.mmidName Demo.contactPayload Demo.otherKey
      (Demo.mmidStore [[5]])).code = kSuccess ∧
    (ProcessData Demo.env kStore Demo.mmidName Demo.contactPayload Demo.otherKey
      (Demo.mmidStore [[5]])).store.Get Demo.mmidName =
      Demo.serializeDataWrapper
        (Demo.wrap (Demo.serializeMMID (Demo.mmidOf [[5], [8, 8]])) kMmid) ∧
    (∃ w2 m2,
      Demo.parseDataWrapper
        ((ProcessData Demo.env kStore Demo.mmidName Demo.contactPayload Demo.otherKey
          (Demo.mmidStore [[5]])).store.Get Demo.mmidName) = some w2 ∧
      Demo.parseMMID w2.signed_data.data = some m2 ∧
      m2.public_key = [1, 2] ∧ m2.signature = [Demo.ownerKey, 1, 2] ∧
      m2.encrypted_message = [[5], [8, 8]]) ∧
    (ProcessData Demo.env kStore Demo.mmidName [] Demo.otherKey
      (Demo.mmidStore [[5]])).code = kModifyFailure := by
  have h := C14_nonowner_store_appends_message Demo.env Demo.mmidName
    Demo.contactPayload Demo.otherKey (Demo.mmidStore [[5]])
    (Demo.wrap (Demo.serializeMMID (Demo.mmidOf [[5]])) kMmid)
    (Demo.mmidOf [[5]]) (by decide) (by decide) (by decide) (by decide) (by decide)
  have h2 := C14_nonowner_store_appends_message Demo.env Demo.mmidName
    [] Demo.otherKey (Demo.mmidStore [[5]])
    (Demo.wrap (Demo.serializeMMID (Demo.mmidOf [[5]])) kMmid)
    (Demo.mmidOf [[5]]) (by decide) (by decide) (by decide) (by decide) (by decide)
  have hs := h.1 [8, 8] (by decide) (by decide)
  exact ⟨hs.1, hs.2.2.2.2.1, hs.2.2.2.2.2 (by decide) (by decide),
    (h2.2.1 (by decide)).1⟩

/-! ## The dispatcher: `Has` and unknown names -/

/-- C18. For every name, payload, key and store, `ProcessData` with operation `Has`
returns `kKeyNotUnique` when `Has(name)` is true and `kKeyUnique` otherwise, leaves the
store as it was and fires no signal; the kind of the name plays no part. -/
theorem C18_has_reports_existence (env : Env K E) (name data : Bytes) (public_key : K)
    (cs : ChunkStore) :
    (ProcessData env kHas name data public_key cs).code =
      (if cs.Has name = true then kKeyNotUnique else kKeyUnique) ∧
    (ProcessData env kHas name data public_key cs).store = cs ∧
    (ProcessData env kHas name data public_key cs).signals = [] := by
  rw [ProcessData_has]
  exact ⟨rfl, rfl, rfl⟩

/-- The outcome of `ProcessData` on a name that `GetDataType` classifies as `kUnknown`,
for an operation other than `Has` (lines 84-85). -/
theorem ProcessData_of_unknown (env : Env K E) (op_type : OperationType)
    (name data : Bytes) (public_key : K) (cs : ChunkStore) (hop : op_type ≠ kHas)
    (hkind : GetDataType name = kUnknown) :
    ProcessData env op_type name data public_key cs = ⟨kUnknownFailure, cs, []⟩ := by
  unfold ProcessData
  simp [hop, hkind, kUnknown, kMsid, kMmid, kAnmpid, kMpid, kHashableSigned,
    kNonHashableSigned]

/-- C19. For every name that `GetDataType` classifies as `kUnknown`, every operation
other than `Has`, every payload, key and store, `ProcessData` returns
`kUnknownFailure`, leaves the store as it was and fires no signal; the code and the
signals are the same whatever the store holds, so nothing read from the store enters
the result. -/
theorem C19_unknown_name_rejected (env : Env K E) (op_type : OperationType)
    (name data : Bytes) (public_key : K) (cs : ChunkStore)
    (hop : op_type ≠ kHas)
    (hkind : GetDataType name = kUnknown) :
    (ProcessData env op_type name data public_key cs).code = kUnknownFailure ∧
    (ProcessData env op_type name data public_key cs).store = cs ∧
    (ProcessData env op_type name data public_key cs).signals = [] ∧
    (∀ cs2 : ChunkStore,
      (ProcessData env op_type name data public_key cs2).code =
        (ProcessData env op_type name data public_key cs).code ∧
      (ProcessData env op_type name data public_key cs2).signals =
        (ProcessData env op_type name data public_key cs).signals) := by
  rw [ProcessData_of_unknown env op_type name data public_key cs hop hkind]
  refine ⟨rfl, rfl, rfl, fun cs2 => ?_⟩
  rw [ProcessData_of_unknown env op_type name data public_key cs2 hop hkind]
  exact ⟨rfl, rfl⟩

theorem C19_unknown_name_rejected_witness :
    (ProcessData Demo.env kStore Demo.unknownName Demo.contactPayload Demo.ownerKey
      (Demo.msidStore true [[5]])).code = kUnknownFailure ∧
    (ProcessData Demo.env kStore Demo.unknownName Demo.contactPayload Demo.ownerKey
      (Demo.msidStore true [[5]])).store = Demo.msidStore true [[5]] ∧
    (ProcessData Demo.env kStore Demo.unknownName Demo.contactPayload Demo.ownerKey
      (Demo.msidStore true [[5]])).signals = [] ∧
    (∀ cs2 : ChunkStore,
      (ProcessData Demo.env kStore Demo.unknownName Demo.contactPayload Demo.ownerKey
        cs2).code =
        (ProcessData Demo.env kStore Demo.unknownName Demo.contactPayload Demo.ownerKey
          (Demo.msidStore true [[5]])).code ∧
      (ProcessData Demo.env kStore Demo.unknownName Demo.contactPayload Demo.ownerKey
        cs2).signals =
        (ProcessData Demo.env kStore Demo.unknownName Demo.contactPayload Demo.ownerKey
          (Demo.msidStore true [[5]])).signals) :=
  C19_unknown_name_rejected Demo.env kStore Demo.unknownName Demo.contactPayload
    Demo.ownerKey (Demo.msidStore true [[5]]) (by decide) (by decide)

/-! ## The classifier -/

/-- The test `(type > 0) && (type < kMaxDataType)` of line 37 in terms of the byte. -/
theorem charToDataType_pos_lt (b : Nat) :
    (0 < charToDataType b ∧ charToDataType b < kMaxDataType) ↔
      (0 < b % 256 ∧ b % 256 < 6) := by
  unfold charToDataType kMaxDataType
  split_ifs
  · constructor
    · rintro ⟨h1, h2⟩
      change (0 : Int) < _ at h1
      change _ < (6 : Int) at h2
      omega
    · rintro ⟨h1, h2⟩
      change (0 : Int) < _ ∧ _ < (6 : Int)
      omega
  · constructor
    · rintro ⟨h1, h2⟩
      change (0 : Int) < _ at h1
      omega
    · rintro ⟨h1, h2⟩
      omega

/-- The conversion of a byte below 128 is its value. -/
theorem charToDataType_of_small (b : Nat) (h : b % 256 < 128) :
    charToDataType b = ((b % 256 : Nat) : Int) := by
  unfold charToDataType
  rw [if_pos h]

/-- C17. For every byte string `name`, with `t` the value of its first byte:
`GetDataType name` is `kHashableSigned` when `name` has `DIGESTSIZE` bytes; when it has
`DIGESTSIZE + 1` bytes and `0 < t < kMaxDataType` it is the kind with ordinal `t`, one
of `kAnmpid`, `kMpid`, `kNonHashableSigned`, `kMsid`, `kMmid`; and it is `kUnknown` in
every other case (another length, the empty name included, or `t = 0`, or
`t ≥ kMaxDataType`). The result depends on the length and the first byte only. -/
theorem C17_GetDataType_classification (name : Bytes) :
    (name.length = DIGESTSIZE → GetDataType name = kHashableSigned) ∧
    (name.length = DIGESTSIZE + 1 → 0 < name.headD 0 % 256 →
      ((name.headD 0 % 256 : Nat) : Int) < kMaxDataType →
      GetDataType name = ((name.headD 0 % 256 : Nat) : Int) ∧
      (GetDataType name = kAnmpid ∨ GetDataType name = kMpid ∨
        GetDataType name = kNonHashableSigned ∨ GetDataType name = kMsid ∨
        GetDataType name = kMmid)) ∧
    (name.length ≠ DIGESTSIZE →
      (name.length ≠ DIGESTSIZE + 1 ∨ name.headD 0 % 256 = 0 ∨
        kMaxDataType ≤ ((name.headD 0 % 256 : Nat) : Int)) →
      GetDataType name = kUnknown) ∧
    (∀ name2 : Bytes, name2.length = name.length →
      name2.headD 0 % 256 = name.headD 0 % 256 → GetDataType name2 = GetDataType name) := by
  refine ⟨?_, ?_, ?_, ?_⟩
  · intro h
    simp [GetDataType, h]
  · intro hlen hpos hlt
    have hne : name.length ≠ DIGESTSIZE := by rw [hlen]; simp
    have hb : name.headD 0 % 256 < 6 := by
      change _ < (6 : Int) at hlt; omega
    have hc := charToDataType_of_small (name.headD 0) (by omega)
    have hval : GetDataType name = ((name.headD 0 % 256 : Nat) : Int) := by
      unfold GetDataType
      rw [if_neg hne, if_pos hlen]
      dsimp only
      rw [if_pos ((charToDataType_pos_lt _).mpr ⟨hpos, hb⟩), hc]
    refine ⟨hval, ?_⟩
    rw [hval]
    change _ = (1 : Int) ∨ _ = (2 : Int) ∨ _ = (3 : Int) ∨ _ = (4 : Int) ∨ _ = (5 : Int)
    omega
  · intro hne hcase
    unfold GetDataType
    rw [if_neg hne]
    by_cases hlen : name.length = DIGESTSIZE + 1
    · rw [if_pos hlen]
      dsimp only
      rw [if_neg]
      rw [charToDataType_pos_lt]
      rcases hcase with h | h | h
      · exact absurd hlen h
      · omega
      · change (6 : Int) ≤ _ at h
        omega
    · rw [if_neg hlen]
  · intro name2 hlen hhead
    unfold GetDataType charToDataType
    rw [hlen, hhead]

theorem C17_GetDataType_classification_witness :
    GetDataType (List.replicate 64 200) = kHashableSigned ∧
    (GetDataType Demo.msidName = ((4 : Nat) : Int) ∧
      (GetDataType Demo.msidName = kAnmpid ∨ GetDataType Demo.msidName = kMpid ∨
        GetDataType Demo.msidName = kNonHashableSigned ∨
        GetDataType Demo.msidName = kMsid ∨ GetDataType Demo.msidName = kMmid)) ∧
    GetDataType [] = kUnknown ∧
    GetDataType Demo.unknownName = kUnknown ∧
    GetDataType (200 :: List.replicate 64 0) = kUnknown :=
  ⟨(C17_GetDataType_classification (List.replicate 64 200)).1 (by decide),
    (C17_GetDataType_classification Demo.msidName).2.1 (by decide) (by decide)
      (by decide),
    (C17_GetDataType_classification []).2.2.1 (by decide) (Or.inl (by decide)),
    (C17_GetDataType_classification Demo.unknownName).2.2.1 (by decide)
      (Or.inr (Or.inr (by decide))),
    (C17_GetDataType_classification (200 :: List.replicate 64 0)).2.2.1 (by decide)
      (Or.inr (Or.inr (by decide)))⟩

/-! ## The two checks of the verification engine -/

/-- C20. The member `PreOperationChecks` returns the code of the first failing check in
this order: `kSuccess` when the operation is `Get`; otherwise `kInvalidSignedData`
when the payload does not parse as a `GenericPacket`; otherwise, with `hashable` set,
`kInvalidUpdate` when the operation is `Update` and else `kNotHashable` when the hash
of the packet's data followed by its signature differs from `name`; otherwise
`kSignatureVerificationFailure` when the packet's signature does not verify over its
data under the requester key; otherwise `kSuccess`. Hence, for an operation other than
`Get`, the result is `kSuccess` exactly when the payload parses, `hashable` implies
that the operation is not `Update` and the hash equals `name`, and the signature
verifies. -/
theorem C20_PreOperationChecks_order (env : Env K E) (op_type : OperationType)
    (name data : Bytes) (public_key : K) (hashable : Bool) :
    (op_type = kGet →
      PreOperationChecks env op_type name data public_key hashable = kSuccess) ∧
    (op_type ≠ kGet → env.parseGenericPacket data = none →
      PreOperationChecks env op_type name data public_key hashable
        = kInvalidSignedData) ∧
    (∀ p, op_type ≠ kGet → env.parseGenericPacket data = some p →
      (hashable = true → op_type = kUpdate →
        PreOperationChecks env op_type name data public_key hashable
          = kInvalidUpdate) ∧
      (hashable = true → op_type ≠ kUpdate →
        env.Hash (p.data ++ p.signature) ≠ name →
        PreOperationChecks env op_type name data public_key hashable = kNotHashable) ∧
      ((hashable = true → op_type ≠ kUpdate ∧ env.Hash (p.data ++ p.signature) = name) →
        env.CheckSignature p.data p.signature public_key ≠ 0 →
        PreOperationChecks env op_type name data public_key hashable
          = kSignatureVerificationFailure) ∧
      ((hashable = true → op_type ≠ kUpdate ∧ env.Hash (p.data ++ p.signature) = name) →
        env.CheckSignature p.data p.signature public_key = 0 →
        PreOperationChecks env op_type name data public_key hashable = kSuccess)) ∧
    (op_type ≠ kGet →
      (PreOperationChecks env op_type name data public_key hashable = kSuccess ↔
        ∃ p, env.parseGenericPacket data = some p ∧
          (hashable = true →
            op_type ≠ kUpdate ∧ env.Hash (p.data ++ p.signature) = name) ∧
          env.CheckSignature p.data p.signature public_key = 0)) := by
  by_cases hget : op_type = kGet
  · simp [PreOperationChecks, hget]
  · cases hp : env.parseGenericPacket data with
    | none => simp [PreOperationChecks, hget, hp]
    | some p =>
      cases hashable with
      | false =>
        by_cases hsig : env.CheckSignature p.data p.signature public_key = 0
        · simp [PreOperationChecks, hget, hp, hsig]
        · simp [PreOperationChecks, hget, hp, hsig]
      | true =>
        by_cases hupd : op_type = kUpdate
        · simp [PreOperationChecks, hp, hupd]
        · by_cases hhash : env.Hash (p.data ++ p.signature) = name
          · by_cases hsig : env.CheckSignature p.data p.signature public_key = 0
            · simp [PreOperationChecks, hget, hp, hupd, hhash, hsig]
            · simp [PreOperationChecks, hget, hp, hupd, hhash, hsig]
          · simp [PreOperationChecks, hget, hp, hupd, hhash]

theorem C20_PreOperationChecks_order_witness :
    PreOperationChecks Demo.env kGet Demo.hashPacketName [] Demo.ownerKey true
      = kSuccess ∧
    PreOperationChecks Demo.env kStore Demo.hashPacketName [] Demo.ownerKey true
      = kInvalidSignedData ∧
    PreOperationChecks Demo.env kUpdate Demo.hashPacketName
      (Demo.serializeGenericPacket Demo.hashPacket) Demo.ownerKey true
      = kInvalidUpdate ∧
    PreOperationChecks Demo.env kStore Demo.hashPacketName
      (Demo.serializeGenericPacket (Demo.signedPacket [9] Demo.ownerKey kHashableSigned))
      Demo.ownerKey true = kNotHashable ∧
    PreOperationChecks Demo.env kStore Demo.hashPacketName
      (Demo.serializeGenericPacket Demo.hashPacket) Demo.otherKey true
      = kSignatureVerificationFailure ∧
    PreOperationChecks Demo.env kStore Demo.hashPacketName
      (Demo.serializeGenericPacket Demo.hashPacket) Demo.ownerKey true
      = kSuccess :=
  ⟨(C20_PreOperationChecks_order Demo.env kGet Demo.hashPacketName [] Demo.ownerKey
      true).1 rfl,
    (C20_PreOperationChecks_order Demo.env kStore Demo.hashPacketName [] Demo.ownerKey
      true).2.1 (by decide) (by decide),
    ((C20_PreOperationChecks_order Demo.env kUpdate Demo.hashPacketName
      (Demo.serializeGenericPacket Demo.hashPacket) Demo.ownerKey true).2.2.1
      Demo.hashPacket (by decide) (by decide)).1 rfl rfl,
    ((C20_PreOperationChecks_order Demo.env kStore Demo.hashPacketName
      (Demo.serializeGenericPacket (Demo.signedPacket [9] Demo.ownerKey kHashableSigned))
      Demo.ownerKey true).2.2.1
      (Demo.signedPacket [9] Demo.ownerKey kHashableSigned) (by decide)
      (by decide)).2.1 rfl (by decide) (by decide),
    ((C20_PreOperationChecks_order Demo.env kStore Demo.hashPacketName
      (Demo.serializeGenericPacket Demo.hashPacket) Demo.otherKey true).2.2.1
      Demo.hashPacket (by decide) (by decide)).2.2.1
      (fun _ => ⟨by decide, by decide⟩) (by decide),
    ((C20_PreOperationChecks_order Demo.env kStore Demo.hashPacketName
      (Demo.serializeGenericPacket Demo.hashPacket) Demo.ownerKey true).2.2.1
      Demo.hashPacket (by decide) (by decide)).2.2.2
      (fun _ => ⟨by decide, by decide⟩) (by decide)⟩

/-- The bytes that `VerifyCurrentData` leaves in `*current_data` are the ones `Get`
returned. -/
theorem VerifyCurrentData_snd (env : Env K E) (name : Bytes) (public_key : K)
    (cs : ChunkStore) : (VerifyCurrentData env name public_key cs).2 = cs.Get name := by
  unfold VerifyCurrentData
  dsimp only
  split_ifs with h
  · rfl
  · cases env.parseGenericPacket (cs.Get name) with
    | none => rfl
    | some p => dsimp only; split_ifs <;> rfl

/-- When `VerifyCurrentData` returns `kSuccess`. -/
theorem VerifyCurrentData_success_iff (env : Env K E) (name : Bytes) (public_key : K)
    (cs : ChunkStore) :
    (VerifyCurrentData env name public_key cs).1 = kSuccess ↔
      cs.Get name ≠ [] ∧ ∃ p, env.parseGenericPacket (cs.Get name) = some p ∧
        (env.ValidateKey public_key = false ∨
          env.CheckSignature p.data p.signature public_key = 0) := by
  unfold VerifyCurrentData
  dsimp only
  by_cases hne : cs.Get name = []
  · simp [hne]
  · cases hp : env.parseGenericPacket (cs.Get name) with
    | none => simp [hne]
    | some p =>
      by_cases hv : env.ValidateKey public_key = true
      · by_cases hsig : env.CheckSignature p.data p.signature public_key = 0
        · simp [hne, hv, hsig]
        · simp [hne, hv, hsig]
      · simp [hne, hv]

/-- The outcome of `Delete` of signed data once `PreOperationChecks` has passed
(lines 115-125). -/
theorem ProcessSignedData_delete (env : Env K E) (name data : Bytes) (public_key : K)
    (hashable : Bool) (cs : ChunkStore)
    (hpre : PreOperationChecks env kDelete name data public_key hashable = kSuccess) :
    ProcessSignedData env kDelete name data public_key hashable cs =
      if (VerifyCurrentData env name public_key cs).1 ≠ kSuccess then
        ⟨kVerifyDataFailure, cs, []⟩
      else if cs.deleteOk name = true then ⟨kSuccess, cs.put name none, []⟩
      else ⟨kDeleteFailure, cs, []⟩ := by
  unfold ProcessSignedData
  rw [if_neg (not_not.mpr hpre)]
  dsimp only
  by_cases hv : (VerifyCurrentData env name public_key cs).1 = kSuccess
  · by_cases hok : cs.deleteOk name = true
    · simp [hv, ChunkStore.Delete, hok]
    · simp [hv, ChunkStore.Delete, hok]
  · simp [hv]

/-- The outcome of `Get` of signed data (lines 139-146). -/
theorem ProcessSignedData_get (env : Env K E) (name data : Bytes) (public_key : K)
    (hashable : Bool) (cs : ChunkStore) :
    ProcessSignedData env kGet name data public_key hashable cs =
      if (VerifyCurrentData env name public_key cs).1 ≠ kSuccess then
        ⟨kVerifyDataFailure, cs, []⟩
      else ⟨kSuccess, cs, [Signal.string (cs.Get name)]⟩ := by
  have hpre : PreOperationChecks env kGet name data public_key hashable = kSuccess := by
    simp [PreOperationChecks]
  unfold ProcessSignedData
  rw [if_neg (not_not.mpr hpre), VerifyCurrentData_snd]

/-- C12. For every `kNonHashableSigned` name, payload, key and store:
`ProcessData(Delete)` returns `kSuccess` exactly when `PreOperationChecks` passes on
the payload, `VerifyCurrentData` passes on the record held under the name and the
store accepts the `Delete`; in that case the store afterwards holds nothing under the
name and holds under every other name what it held before. If both checks pass and
the store rejects the `Delete`, the call returns `kDeleteFailure` with the store as it
was. If the requester key is a valid key that does not verify the signature of the
stored packet over its data, the call does not succeed and the store is as it was. -/
theorem C12_nonhashable_delete (env : Env K E) (name data : Bytes) (public_key : K)
    (cs : ChunkStore)
    (hkind : GetDataType name = kNonHashableSigned) :
    ((ProcessData env kDelete name data public_key cs).code = kSuccess ↔
      PreOperationChecks env kDelete name data public_key false = kSuccess ∧
      (VerifyCurrentData env name public_key cs).1 = kSuccess ∧
      cs.deleteOk name = true) ∧
    ((ProcessData env kDelete name data public_key cs).code = kSuccess →
      (ProcessData env kDelete name data public_key cs).store = cs.put name none ∧
      (ProcessData env kDelete name data public_key cs).store.chunks name = none ∧
      (∀ n, n ≠ name →
        (ProcessData env kDelete name data public_key cs).store.chunks n =
          cs.chunks n)) ∧
    (PreOperationChecks env kDelete name data public_key false = kSuccess →
      (VerifyCurrentData env name public_key cs).1 = kSuccess →
      cs.deleteOk name = false →
      (ProcessData env kDelete name data public_key cs).code = kDeleteFailure ∧
      (ProcessData env kDelete name data public_key cs).store = cs) ∧
    (∀ p, env.parseGenericPacket (cs.Get name) = some p →
      env.ValidateKey public_key = true →
      env.CheckSignature p.data p.signature public_key ≠ 0 →
      (ProcessData env kDelete name data public_key cs).code ≠ kSuccess ∧
      (ProcessData env kDelete name data public_key cs).store = cs) := by
  rw [ProcessData_of_nonhashable env kDelete name data public_key cs (by decide) hkind]
  have hput : (cs.put name none).chunks name = none ∧
      ∀ n, n ≠ name → (cs.put name none).chunks n = cs.chunks n := by
    constructor
    · simp [ChunkStore.put]
    · intro n hn
      simp [ChunkStore.put, hn]
  have hnotowner : ∀ p, env.parseGenericPacket (cs.Get name) = some p →
      env.ValidateKey public_key = true →
      env.CheckSignature p.data p.signature public_key ≠ 0 →
      (VerifyCurrentData env name public_key cs).1 ≠ kSuccess := by
    intro p hp hv hsig hok
    obtain ⟨_, q, hq, hor⟩ := (VerifyCurrentData_success_iff env name public_key cs).mp hok
    rw [hp] at hq
    cases hq
    rcases hor with h | h
    · rw [hv] at h; cases h
    · exact hsig h
  by_cases hpre : PreOperationChecks env kDelete name data public_key false = kSuccess
  · rw [ProcessSignedData_delete env name data public_key false cs hpre]
    by_cases hv : (VerifyCurrentData env name public_key cs).1 = kSuccess
    · by_cases hok : cs.deleteOk name = true
      · rw [if_neg (not_not.mpr hv), if_pos hok]
        refine ⟨⟨fun _ => ⟨hpre, hv, hok⟩, fun _ => rfl⟩, fun _ => ⟨rfl, hput.1, hput.2⟩,
          ?_, ?_⟩
        · intro _ _ hno
          rw [hok] at hno
          cases hno
        · intro p hp hval hsig
          exact absurd hv (hnotowner p hp hval hsig)
      · rw [if_neg (not_not.mpr hv), if_neg hok]
        refine ⟨⟨fun h => (by cases h), fun h => absurd h.2.2 hok⟩, fun h => (by cases h),
          fun _ _ _ => ⟨rfl, rfl⟩, ?_⟩
        intro p hp hval hsig
        exact absurd hv (hnotowner p hp hval hsig)
    · rw [if_pos hv]
      refine ⟨⟨fun h => (by cases h), fun h => absurd h.2.1 hv⟩, fun h => (by cases h),
        fun _ h _ => absurd h hv, fun _ _ _ _ => ⟨(by simp), rfl⟩⟩
  · have hout : ProcessSignedData env kDelete name data public_key false cs =
        ⟨kPreOperationCheckFailure, cs, []⟩ := by
      unfold ProcessSignedData
      rw [if_pos hpre]
    rw [hout]
    refine ⟨⟨fun h => (by cases h), fun h => absurd h.1 hpre⟩, fun h => (by cases h),
      fun h _ _ => absurd h hpre, fun _ _ _ _ => ⟨(by simp), rfl⟩⟩

theorem C12_nonhashable_delete_witness :
    (ProcessData Demo.env kDelete Demo.plainName
      (Demo.serializeGenericPacket Demo.plainPacket) Demo.ownerKey
      Demo.plainStore).code = kSuccess ∧
    (ProcessData Demo.env kDelete Demo.plainName
      (Demo.serializeGenericPacket Demo.plainPacket) Demo.ownerKey
      Demo.plainStore).store.chunks Demo.plainName = none ∧
    (ProcessData Demo.env kDelete Demo.plainName
      (Demo.serializeGenericPacket (Demo.signedPacket [3, 4] Demo.otherKey 3))
      Demo.otherKey Demo.plainStore).store = Demo.plainStore := by
  have h := C12_nonhashable_delete Demo.env Demo.plainName
    (Demo.serializeGenericPacket Demo.plainPacket) Demo.ownerKey Demo.plainStore
    (by decide)
  have hok := h.1.mpr ⟨by decide, by decide, by decide⟩
  have h2 := C12_nonhashable_delete Demo.env Demo.plainName
    (Demo.serializeGenericPacket (Demo.signedPacket [3, 4] Demo.otherKey 3))
    Demo.otherKey Demo.plainStore (by decide)
  exact ⟨hok, (h.2.1 hok).2.1,
    (h2.2.2.2 Demo.plainPacket (by decide) (by decide) (by decide)).2⟩

/-- C13. For every signed-data name (routed with `hashable` set or not), every payload,
key and store: `ProcessData(Get)` returns `kSuccess` exactly when the bytes held under
the name are non-empty, parse as a `GenericPacket`, and the requester key either is
not a valid key or verifies the signature of that packet over its data; in that case
it fires exactly one one-payload signal carrying those bytes. Otherwise it returns
`kVerifyDataFailure` and fires no signal. In both cases the store is as it was. -/
theorem C13_signed_get (env : Env K E) (name data : Bytes) (public_key : K)
    (cs : ChunkStore) (hashable : Bool)
    (hroute : (hashable = true ∧ (GetDataType name = kHashableSigned ∨
        GetDataType name = kAnmpid ∨ GetDataType name = kMpid)) ∨
      (hashable = false ∧ GetDataType name = kNonHashableSigned)) :
    (((ProcessData env kGet name data public_key cs).code = kSuccess ∧
        (ProcessData env kGet name data public_key cs).signals =
          [Signal.string (cs.Get name)]) ↔
      (cs.Get name ≠ [] ∧ ∃ p, env.parseGenericPacket (cs.Get name) = some p ∧
        (env.ValidateKey public_key = false ∨
          env.CheckSignature p.data p.signature public_key = 0))) ∧
    (¬ (cs.Get name ≠ [] ∧ ∃ p, env.parseGenericPacket (cs.Get name) = some p ∧
        (env.ValidateKey public_key = false ∨
          env.CheckSignature p.data p.signature public_key = 0)) →
      (ProcessData env kGet name data public_key cs).code = kVerifyDataFailure ∧
      (ProcessData env kGet name data public_key cs).signals = []) ∧
    (ProcessData env kGet name data public_key cs).store = cs := by
  rw [ProcessData_of_signed env kGet name data public_key cs hashable (by decide) hroute,
    ProcessSignedData_get env name data public_key hashable cs,
    ← VerifyCurrentData_success_iff env name public_key cs]
  by_cases hv : (VerifyCurrentData env name public_key cs).1 = kSuccess
  · rw [if_neg (not_not.mpr hv)]
    exact ⟨⟨fun _ => hv, fun _ => ⟨rfl, rfl⟩⟩, fun h => absurd hv h, rfl⟩
  · rw [if_pos hv]
    refine ⟨⟨fun h => ?_, fun h => absurd h hv⟩, fun _ => ⟨rfl, rfl⟩, rfl⟩
    have h1 := h.1
    cases h1

theorem C13_signed_get_witness :
    ((ProcessData Demo.env kGet Demo.plainName [] Demo.ownerKey Demo.plainStore).code
        = kSuccess ∧
      (ProcessData Demo.env kGet Demo.plainName [] Demo.ownerKey Demo.plainStore).signals
        = [Signal.string (Demo.plainStore.Get Demo.plainName)]) ∧
    ((ProcessData Demo.env kGet Demo.plainName [] Demo.otherKey Demo.plainStore).code
        = kVerifyDataFailure ∧
      (ProcessData Demo.env kGet Demo.plainName [] Demo.otherKey Demo.plainStore).signals
        = []) ∧
    (ProcessData Demo.env kGet Demo.plainName [] Demo.ownerKey Demo.plainStore).store
      = Demo.plainStore :=
  ⟨(C13_signed_get Demo.env Demo.plainName [] Demo.ownerKey Demo.plainStore false
      (Or.inr ⟨rfl, by decide⟩)).1.mpr (by decide),
    (C13_signed_get Demo.env Demo.plainName [] Demo.otherKey Demo.plainStore false
      (Or.inr ⟨rfl, by decide⟩)).2.1 (by decide),
    (C13_signed_get Demo.env Demo.plainName [] Demo.ownerKey Demo.plainStore false
      (Or.inr ⟨rfl, by decide⟩)).2.2⟩

/-! ## Tagged names routed as hashable -/

/-- A name that `GetDataType` classifies as `kAnmpid` or `kMpid` has `DIGESTSIZE + 1`
bytes. -/
theorem length_of_anmpid_or_mpid (name : Bytes)
    (hkind : GetDataType name = kAnmpid ∨ GetDataType name = kMpid) :
    name.length = DIGESTSIZE + 1 := by
  by_contra hlen
  have hcases : GetDataType name = kHashableSigned ∨ GetDataType name = kUnknown := by
    unfold GetDataType
    by_cases h64 : name.length = DIGESTSIZE
    · rw [if_pos h64]; exact Or.inl rfl
    · rw [if_neg h64, if_neg hlen]; exact Or.inr rfl
  rcases hcases with h | h <;> rcases hkind with h2 | h2 <;>
    · rw [h] at h2
      revert h2
      decide

/-- With `hashable` set, `PreOperationChecks` passes for an operation other than `Get`
only on a payload whose hash is the name. -/
theorem PreOperationChecks_hashable_success (env : Env K E) (op_type : OperationType)
    (name data : Bytes) (public_key : K) (hop : op_type ≠ kGet)
    (h : PreOperationChecks env op_type name data public_key true = kSuccess) :
    ∃ p, env.parseGenericPacket data = some p ∧
      env.Hash (p.data ++ p.signature) = name := by
  unfold PreOperationChecks at h
  rw [if_neg hop] at h
  cases hp : env.parseGenericPacket data with
  | none => rw [hp] at h; cases h
  | some p =>
    refine ⟨p, rfl, ?_⟩
    by_contra hne
    rw [hp] at h
    dsimp only at h
    rw [if_pos rfl] at h
    by_cases hupd : op_type = kUpdate
    · rw [if_pos hupd] at h; cases h
    · rw [if_neg hupd, if_pos hne] at h; cases h

/-- C21. Assume that the hash always returns exactly `DIGESTSIZE` bytes and let
`GetDataType` classify `name` as `kAnmpid` or `kMpid`. Then `name` has
`DIGESTSIZE + 1` bytes; for the operations `Store`, `Delete` and `Update`, every
payload, key and store, `PreOperationChecks` (called with `hashable` set) does not
pass, so `ProcessData` returns `kPreOperationCheckFailure`, never `kSuccess`, and fires
no signal; and for every operation the store after the call is the store before it,
so no call of `ProcessData` creates a record under such a name. -/
theorem C21_tagged_hashable_never_stored (env : Env K E) (op_type : OperationType)
    (name data : Bytes) (public_key : K) (cs : ChunkStore)
    (hhash : ∀ b, (env.Hash b).length = DIGESTSIZE)
    (hkind : GetDataType name = kAnmpid ∨ GetDataType name = kMpid) :
    name.length = DIGESTSIZE + 1 ∧
    (op_type = kStore ∨ op_type = kDelete ∨ op_type = kUpdate →
      PreOperationChecks env op_type name data public_key true ≠ kSuccess ∧
      (ProcessData env op_type name data public_key cs).code
        = kPreOperationCheckFailure ∧
      (ProcessData env op_type name data public_key cs).code ≠ kSuccess ∧
      (ProcessData env op_type name data public_key cs).signals = []) ∧
    (ProcessData env op_type name data public_key cs).store = cs := by
  have hlen := length_of_anmpid_or_mpid name hkind
  have hroute : GetDataType name = kHashableSigned ∨ GetDataType name = kAnmpid ∨
      GetDataType name = kMpid := Or.inr hkind
  have hpre : ∀ op : OperationType, op ≠ kGet →
      PreOperationChecks env op name data public_key true ≠ kSuccess := by
    intro op hop hok
    obtain ⟨p, _, hp⟩ := PreOperationChecks_hashable_success env op name data public_key
      hop hok
    have h1 := hhash (p.data ++ p.signature)
    rw [hp, hlen] at h1
    exact absurd h1 (by decide)
  refine ⟨hlen, ?_, ?_⟩
  · intro hop
    have hnotget : op_type ≠ kGet := by
      rcases hop with h | h | h <;> rw [h] <;> decide
    have hnothas : op_type ≠ kHas := by
      rcases hop with h | h | h <;> rw [h] <;> decide
    have hfail := hpre op_type hnotget
    have hout : ProcessData env op_type name data public_key cs =
        ⟨kPreOperationCheckFailure, cs, []⟩ := by
      rw [ProcessData_of_hashable env op_type name data public_key cs hnothas hroute]
      unfold ProcessSignedData
      rw [if_pos hfail]
    rw [hout]
    exact ⟨hfail, rfl, fun h => (by cases h), rfl⟩
  · by_cases hhas : op_type = kHas
    · rw [hhas, ProcessData_has]
    · rw [ProcessData_of_hashable env op_type name data public_key cs hhas hroute]
      by_cases hget : op_type = kGet
      · rw [hget, ProcessSignedData_get]
        split_ifs <;> rfl
      · unfold ProcessSignedData
        rw [if_pos (hpre op_type hget)]

theorem C21_tagged_hashable_never_stored_witness :
    Demo.anmpidName.length = DIGESTSIZE + 1 ∧
    (ProcessData Demo.env kStore Demo.anmpidName
      (Demo.serializeGenericPacket Demo.hashPacket) Demo.ownerKey
      Demo.emptyStore).code = kPreOperationCheckFailure ∧
    (ProcessData Demo.env kStore Demo.anmpidName
      (Demo.serializeGenericPacket Demo.hashPacket) Demo.ownerKey
      Demo.emptyStore).store = Demo.emptyStore := by
  have h := C21_tagged_hashable_never_stored Demo.env kStore Demo.anmpidName
    (Demo.serializeGenericPacket Demo.hashPacket) Demo.ownerKey Demo.emptyStore
    (fun b => by simp [Demo.env, DIGESTSIZE]) (Or.inl (by decide))
  exact ⟨h.1, (h.2.1 (Or.inl rfl)).2.1, h.2.2⟩

/-! ## Any operation on a mailbox name that holds nothing -/

/-- What `ProcessMmidData` does, for any operation, when `Get` returns nothing for the
name. -/
theorem ProcessMmidData_absent (env : Env K E) (op_type : OperationType)
    (name data : Bytes) (public_key : K) (cs : ChunkStore) (habsent : cs.Get name = []) :
    ProcessMmidData env op_type name data public_key cs =
      match env.parseMMID (env.payloadWrapper data).signed_data.data with
      | none => ⟨kStoreFailure, cs, []⟩
      | some m =>
        if env.CheckSignature m.public_key m.signature public_key ≠ 0 then
          ⟨kStoreFailure, cs, []⟩
        else if cs.storeOk name (env.serializeDataWrapper (env.payloadWrapper data))
            = true then
          ⟨kSuccess,
            cs.put name (some (env.serializeDataWrapper (env.payloadWrapper data))), []⟩
        else ⟨kStoreFailure, cs, []⟩ := by
  simp only [ProcessMmidData, habsent, ne_eq, not_true_eq_false, if_false]
  cases env.parseMMID (env.payloadWrapper data).signed_data.data with
  | none => rfl
  | some m =>
    by_cases hsig : env.CheckSignature m.public_key m.signature public_key = 0
    · by_cases hok : cs.storeOk name (env.serializeDataWrapper (env.payloadWrapper data))
          = true
      · simp [hsig, ChunkStore.Store, hok]
      · simp [hsig, ChunkStore.Store, hok]
    · simp [hsig]

/-- C22 (counterexample). The demo store holds nothing under the Msid name and rejects
every `Store`; the payload carries a social-identity mailbox whose self-signature
validates under `ownerKey`. `ProcessData(Get)` returns `kStoreFailure`, not
`kSuccess`, and no record is created under the name. -/
theorem C22_get_on_absent_mailbox_store_rejected :
    GetDataType Demo.msidName = kMsid ∧
    Demo.fullStore.Get Demo.msidName = [] ∧
    Demo.env.parseMSID (Demo.env.payloadWrapper Demo.mailboxPayload).signed_data.data =
      some (Demo.msidOf true []) ∧
    Demo.env.CheckSignature (Demo.msidOf true []).public_key
      (Demo.msidOf true []).signature Demo.ownerKey = 0 ∧
    (ProcessData Demo.env kGet Demo.msidName Demo.mailboxPayload Demo.ownerKey
      Demo.fullStore).code = kStoreFailure ∧
    (ProcessData Demo.env kGet Demo.msidName Demo.mailboxPayload Demo.ownerKey
      Demo.fullStore).store.Has Demo.msidName = false := by
  decide

/-- C22 (amended). Let `Get` return nothing for an Msid or Mmid `name`. For each of the
four operations `Store`, `Get`, `Update` and `Delete` (every operation other than
`Has`), `ProcessData` has the outcome it has for `Store`: the same code, the same
store afterwards and the same signals. In particular, when the payload carries a
mailbox record whose self-signature validates under the requester key: if the store
accepts the `Store` call, the operation returns `kSuccess`, fires no signal and leaves
the serialised wrapper of the payload under `name`; if the store rejects it, the
operation returns `kStoreFailure`, fires no signal and leaves the store as it was.
The first conjunct is the Msid case, the second the Mmid case. -/
theorem C22_absent_mailbox_any_operation (env : Env K E) (op_type : OperationType)
    (name data : Bytes) (public_key : K) (cs : ChunkStore)
    (hop : op_type ≠ kHas)
    (habsent : cs.Get name = []) :
    (GetDataType name = kMsid →
      ProcessData env op_type name data public_key cs =
        ProcessData env kStore name data public_key cs ∧
      ∀ m : MSID,
        env.parseMSID (env.payloadWrapper data).signed_data.data = some m →
        env.CheckSignature m.public_key m.signature public_key = 0 →
        (cs.storeOk name (env.serializeDataWrapper (env.payloadWrapper data)) = true →
          (ProcessData env op_type name data public_key cs).code = kSuccess ∧
          (ProcessData env op_type name data public_key cs).store =
            cs.put name (some (env.serializeDataWrapper (env.payloadWrapper data))) ∧
          (ProcessData env op_type name data public_key cs).store.Get name =
            env.serializeDataWrapper (env.payloadWrapper data) ∧
          (ProcessData env op_type name data public_key cs).signals = []) ∧
        (cs.storeOk name (env.serializeDataWrapper (env.payloadWrapper data)) = false →
          (ProcessData env op_type name data public_key cs).code = kStoreFailure ∧
          (ProcessData env op_type name data public_key cs).store = cs ∧
          (ProcessData env op_type name data public_key cs).signals = [])) ∧
    (GetDataType name = kMmid →
      ProcessData env op_type name data public_key cs =
        ProcessData env kStore name data public_key cs ∧
      ∀ m : MMID E,
        env.parseMMID (env.payloadWrapper data).signed_data.data = some m →
        env.CheckSignature m.public_key m.signature public_key = 0 →
        (cs.storeOk name (env.serializeDataWrapper (env.payloadWrapper data)) = true →
          (ProcessData env op_type name data public_key cs).code = kSuccess ∧
          (ProcessData env op_type name data public_key cs).store =
            cs.put name (some (env.serializeDataWrapper (env.payloadWrapper data))) ∧
          (ProcessData env op_type name data public_key cs).store.Get name =
            env.serializeDataWrapper (env.payloadWrapper data) ∧
          (ProcessData env op_type name data public_key cs).signals = []) ∧
        (cs.storeOk name (env.serializeDataWrapper (env.payloadWrapper data)) = false →
          (ProcessData env op_type name data public_key cs).code = kStoreFailure ∧
          (ProcessData env op_type name data public_key cs).store = cs ∧
          (ProcessData env op_type name data public_key cs).signals = [])) := by
  constructor
  · intro hkind
    rw [ProcessData_of_msid env op_type name data public_key cs hop hkind,
      ProcessData_of_msid env kStore name data public_key cs (by decide) hkind,
      ProcessMsidData_absent env op_type name data public_key cs habsent,
      ProcessMsidData_absent env kStore name data public_key cs habsent]
    refine ⟨rfl, ?_⟩
    intro m hm hsig
    rw [hm]
    dsimp only
    rw [if_neg (not_not.mpr hsig)]
    constructor
    · intro hok
      rw [if_pos hok]
      exact ⟨rfl, rfl, ChunkStore.put_Get _ _ _, rfl⟩
    · intro hno
      rw [if_neg (by rw [hno]; decide)]
      exact ⟨rfl, rfl, rfl⟩
  · intro hkind
    rw [ProcessData_of_mmid env op_type name data public_key cs hop hkind,
      ProcessData_of_mmid env kStore name data public_key cs (by decide) hkind,
      ProcessMmidData_absent env op_type name data public_key cs habsent,
      ProcessMmidData_absent env kStore name data public_key cs habsent]
    refine ⟨rfl, ?_⟩
    intro m hm hsig
    rw [hm]
    dsimp only
    rw [if_neg (not_not.mpr hsig)]
    constructor
    · intro hok
      rw [if_pos hok]
      exact ⟨rfl, rfl, ChunkStore.put_Get _ _ _, rfl⟩
    · intro hno
      rw [if_neg (by rw [hno]; decide)]
      exact ⟨rfl, rfl, rfl⟩

theorem C22_absent_mailbox_any_operation_witness :
    (ProcessData Demo.env kGet Demo.msidName Demo.mailboxPayload Demo.ownerKey
        Demo.emptyStore =
      ProcessData Demo.env kStore Demo.msidName Demo.mailboxPayload Demo.ownerKey
        Demo.emptyStore ∧
      (ProcessData Demo.env kGet Demo.msidName Demo.mailboxPayload Demo.ownerKey
        Demo.emptyStore).code = kSuccess ∧
      (ProcessData Demo.env kGet Demo.msidName Demo.mailboxPayload Demo.ownerKey
        Demo.emptyStore).store.Get Demo.msidName = Demo.mailboxPayload ∧
      (ProcessData Demo.env kGet Demo.msidName Demo.mailboxPayload Demo.ownerKey
        Demo.fullStore).code = kStoreFailure) ∧
    (ProcessData Demo.env kDelete Demo.mmidName Demo.mmidPayload Demo.ownerKey
        Demo.emptyStore =
      ProcessData Demo.env kStore Demo.mmidName Demo.mmidPayload Demo.ownerKey
        Demo.emptyStore ∧
      (ProcessData Demo.env kDelete Demo.mmidName Demo.mmidPayload Demo.ownerKey
        Demo.emptyStore).code = kSuccess ∧
      (ProcessData Demo.env kDelete Demo.mmidName Demo.mmidPayload Demo.ownerKey
        Demo.emptyStore).store.Get Demo.mmidName = Demo.mmidPayload) := by
  have hs := (C22_absent_mailbox_any_operation Demo.env kGet Demo.msidName
    Demo.mailboxPayload Demo.ownerKey Demo.emptyStore (by decide) (by decide)).1
    (by decide)
  have hs1 := (hs.2 (Demo.msidOf true []) (by decide) (by decide)).1 (by decide)
  have hf := (C22_absent_mailbox_any_operation Demo.env kGet Demo.msidName
    Demo.mailboxPayload Demo.ownerKey Demo.fullStore (by decide) (by decide)).1
    (by decide)
  have hf1 := (hf.2 (Demo.msidOf true []) (by decide) (by decide)).2 (by decide)
  have hm := (C22_absent_mailbox_any_operation Demo.env kDelete Demo.mmidName
    Demo.mmidPayload Demo.ownerKey Demo.emptyStore (by decide) (by decide)).2
    (by decide)
  have hm1 := (hm.2 (Demo.mmidOf []) (by decide) (by decide)).1 (by decide)
  exact ⟨⟨hs.1, hs1.1, hs1.2.2.1, hf1.1⟩, ⟨hm.1, hm1.1, hm1.2.2.1⟩⟩

end ChunkActionAuthority
